import Mathlib

/-!
Verification of the GravityCapture tribe-log pipeline.

This file shallowly embeds the algorithmic core of the repository:
the tolerant header parsing and event post-processing passes
(stage_api/tribelog/parser.py), the rule-based classifier
(stage_api/tribelog/classify.py), the hashing helpers (stage_api/db.py),
and the OCR selection/merge controller (stage_api/ocr/router.py).

Python strings are modelled as lists of characters.  The Python regular
expressions of the source are embedded through a small backtracking
matcher (section "Regex engine" below): every pattern of the source is
transliterated into an explicit pattern term, and the matcher enumerates
match states in exactly the order Python's backtracking explores them
(alternation left first, greedy repetition longest first, lazy repetition
shortest first), so the head of the enumeration is the match Python
returns.  Character classes follow Python semantics restricted to ASCII
input (the tribe-log lines the pipeline handles are ASCII).
-/

namespace GravityCapture

/- Rational arithmetic is used for OCR confidences; Batteries marks the
Rat operations irreducible, which would keep concrete witnesses from
evaluating by decide, so they are made semireducible for this file. -/
attribute [local semireducible] Rat.add Rat.mul Rat.sub Rat.inv

/-! ## Python character classes and string helpers -/

/-- Python regex class backslash-s (ASCII whitespace). -/
def isSpacePy (c : Char) : Bool :=
  c == ' ' || c == '\t' || c == '\n' || c == '\r' || c == '\x0b' || c == '\x0c'

/-- Python regex class backslash-d (ASCII digits). -/
def isDigitPy (c : Char) : Bool := c.isDigit

/-- Python regex class backslash-w (ASCII word characters). -/
def isWordPy (c : Char) : Bool := c.isAlphanum || c == '_'

/-- Python regex dot: any character except a newline. -/
def isDotPy (c : Char) : Bool := c != '\n'

/-- ASCII lower-casing used to model case-insensitive matching. -/
def lowerPy (c : Char) : Char := c.toLower

/-- Python str.strip() with no arguments: remove leading and trailing whitespace. -/
def pyStrip (s : List Char) : List Char :=
  ((s.dropWhile isSpacePy).reverse.dropWhile isSpacePy).reverse

/-- Python str.lower() on a whole string (ASCII). -/
def pyLower (s : List Char) : List Char := s.map lowerPy

/-- Number of leading characters of s satisfying p. -/
def runLen (p : Char → Bool) : List Char → Nat
  | [] => 0
  | c :: t => if p c then runLen p t + 1 else 0

/-! ## Regex engine

A pattern term mirrors one Python regular expression.  All repetitions in
the embedded patterns repeat a single character class, so repetition is a
primitive over character classes rather than over arbitrary subpatterns.
-/

/-- One backtracking state: the character just before the current
position (for word boundaries), the remaining input, and the captures
recorded so far (group index paired with captured text; the most recent
entry for an index is its value). -/
structure MSt where
  prev : Option Char
  rem : List Char
  caps : List (Nat × List Char)
  deriving Repr, DecidableEq

/-- Pattern terms.  cls p lo hi is a greedy bounded repetition of a
character class, clsL its lazy version; star and starL are unbounded
repetitions; lit is a literal (caseFold true models re.IGNORECASE);
grp records a capturing group; wb is a word boundary; eol is the
dollar anchor (end of input, or just before a final newline). -/
inductive RE where
  | eps
  | cls (p : Char → Bool) (lo hi : Nat)
  | clsL (p : Char → Bool) (lo hi : Nat)
  | star (p : Char → Bool)
  | starL (p : Char → Bool)
  | lit (s : List Char) (caseFold : Bool)
  | seq (a b : RE)
  | alt (a b : RE)
  | opt (a : RE)
  | grp (n : Nat) (a : RE)
  | wb
  | eol

namespace RE

/-- Advance a state by k characters. -/
def consumeN (st : MSt) (k : Nat) : MSt :=
  { prev := if k = 0 then st.prev else (st.rem.take k).getLast? <|> st.prev
    rem := st.rem.drop k
    caps := st.caps }

/-- Descending list hi, hi-1, ..., lo. -/
def descRange (lo hi : Nat) : List Nat :=
  (List.range (hi + 1 - lo)).map (fun i => hi - i)

/-- Ascending list lo, lo+1, ..., hi. -/
def ascRange (lo hi : Nat) : List Nat :=
  (List.range (hi + 1 - lo)).map (fun i => lo + i)

/-- Does the literal match at the head of s (optionally case folded)? -/
def litMatches (l : List Char) (cf : Bool) (s : List Char) : Bool :=
  match l, s with
  | [], _ => true
  | _ :: _, [] => false
  | a :: l2, c :: s2 =>
      (if cf then lowerPy a == lowerPy c else a == c) && litMatches l2 cf s2

/-- All match states of a pattern from a state, in Python backtracking
priority order: the head of the result is the alternative Python's
matcher commits to first. -/
def allM : RE → MSt → List MSt
  | eps, st => [st]
  | cls p lo hi, st =>
      let r := min (runLen p st.rem) hi
      if lo ≤ r then (descRange lo r).map (consumeN st) else []
  | clsL p lo hi, st =>
      let r := min (runLen p st.rem) hi
      if lo ≤ r then (ascRange lo r).map (consumeN st) else []
  | star p, st =>
      (descRange 0 (runLen p st.rem)).map (consumeN st)
  | starL p, st =>
      (ascRange 0 (runLen p st.rem)).map (consumeN st)
  | lit l cf, st =>
      if litMatches l cf st.rem then [consumeN st l.length] else []
  | seq a b, st => (allM a st).flatMap (allM b)
  | alt a b, st => allM a st ++ allM b st
  | opt a, st => allM a st ++ [st]
  | grp n a, st =>
      (allM a st).map (fun st2 =>
        { st2 with caps := (n, st.rem.take (st.rem.length - st2.rem.length)) :: st2.caps })
  | wb, st =>
      let pw := match st.prev with | some c => isWordPy c | none => false
      let nw := match st.rem.head? with | some c => isWordPy c | none => false
      if pw ≠ nw then [st] else []
  | eol, st =>
      if st.rem = [] ∨ st.rem = ['\n'] then [st] else []

/-- Initial state at the start of the input. -/
def stInit (s : List Char) : MSt := { prev := none, rem := s, caps := [] }

/-- re.match: the match Python returns when anchoring at the start
(none when the pattern does not match there). -/
def reMatch (re : RE) (s : List Char) : Option MSt :=
  (allM re (stInit s)).head?

/-- re.fullmatch: the first backtracking alternative consuming the
entire input. -/
def reFull (re : RE) (s : List Char) : Option MSt :=
  (allM re (stInit s)).find? (fun st => st.rem.isEmpty)

/-- re.search: scan left to right for the first position where the
pattern matches; the state records the match end. -/
def reSearchAux (re : RE) (prev : Option Char) : List Char → Option (Nat × MSt)
  | [] =>
    match (allM re { prev := prev, rem := [], caps := [] }).head? with
    | some st => some (0, st)
    | none => none
  | c :: t =>
    match (allM re { prev := prev, rem := c :: t, caps := [] }).head? with
    | some st => some (0, st)
    | none =>
      match reSearchAux re (some c) t with
      | some (i, st) => some (i + 1, st)
      | none => none

/-- re.search returning the matched state (none when no position matches). -/
def reSearch (re : RE) (s : List Char) : Option MSt :=
  (reSearchAux re none s).map (·.2)

/-- Did the search succeed (bool form of re.search truthiness)? -/
def searches (re : RE) (s : List Char) : Bool :=
  (reSearch re s).isSome

/-- Did re.match succeed? -/
def tests (re : RE) (s : List Char) : Bool :=
  (reMatch re s).isSome

/-- Value of a capture group in a match state (None when the group did
not participate in the match). -/
def capOf (st : MSt) (n : Nat) : Option (List Char) :=
  (st.caps.find? (fun pr => pr.1 = n)).map (·.2)

end RE

/-! Convenient pattern constructors. -/

/-- Greedy plus of a character class. -/
def rePlus (p : Char → Bool) : RE := RE.seq (RE.cls p 1 1) (RE.star p)

/-- Lazy plus of a character class (Python .+? and friends). -/
def rePlusL (p : Char → Bool) : RE := RE.seq (RE.cls p 1 1) (RE.starL p)

/-- A single character from a class. -/
def reOne (p : Char → Bool) : RE := RE.cls p 1 1

/-- Sequence of a list of patterns. -/
def reCat (l : List RE) : RE := l.foldr RE.seq RE.eps

/-- Case-insensitive literal from a string. -/
def litCI (s : String) : RE := RE.lit s.data true

/-- Case-sensitive literal from a string. -/
def litCS (s : String) : RE := RE.lit s.data false

/-- Membership character class from a string of alternatives. -/
def oneOf (s : String) : Char → Bool := fun c => s.data.contains c

/-! ## Header parser (stage_api/tribelog/parser.py)

Events are parsed from stitched lines.  The tolerant header pattern
_RX_HEADER and its unanchored variant _RX_HEADER_ANY are transliterated
below; group numbering follows the order of the named groups in the
source (1 = day, 2 = hour, 3 = minute, 4 = second, 5 = msg).
-/

/-- The word Day with its OCR misreadings: (?:Day|Dav|Doy), IGNORECASE. -/
def reDayWord : RE := RE.alt (litCI "Day") (RE.alt (litCI "Dav") (litCI "Doy"))

/-- Separator after the day word: backslash-s* [,/:-]? backslash-s*. -/
def reDaySep : RE :=
  reCat [RE.star isSpacePy, RE.opt (reOne (oneOf ",/:-")), RE.star isSpacePy]

/-- Optional separator between day number and hour: (?:s*,s*|s+)?. -/
def reDayHourSep : RE :=
  RE.opt (RE.alt (reCat [RE.star isSpacePy, litCS ",", RE.star isSpacePy])
                 (rePlus isSpacePy))

/-- Time component separator: backslash-s* [:.] backslash-s*. -/
def reTimeSep : RE :=
  reCat [RE.star isSpacePy, reOne (oneOf ":."), RE.star isSpacePy]

/-- parser.py _RX_HEADER: the anchored tolerant tribe-log header.
Transliterates, in order: leading whitespace, the Day word, an optional
punctuation separator, the day number (1-6 digits), an optional
day/hour separator, hour (1-2 digits), a [:.] separator, minute
(1-2 digits), an optional [:.]-separated second (2-3 digits), an
optional colon/dash/space separator before the message, and the lazy
message capture followed by trailing whitespace and the end anchor. -/
def rxHeader : RE :=
  reCat
    [ RE.star isSpacePy
    , reDayWord
    , reDaySep
    , RE.grp 1 (RE.cls isDigitPy 1 6)
    , reDayHourSep
    , RE.grp 2 (RE.cls isDigitPy 1 2)
    , reTimeSep
    , RE.grp 3 (RE.cls isDigitPy 1 2)
    , RE.opt (reCat [RE.star isSpacePy, reOne (oneOf ":."), RE.star isSpacePy,
                     RE.grp 4 (RE.cls isDigitPy 2 3)])
    , RE.star isSpacePy
    , RE.opt (RE.alt (reCat [RE.star isSpacePy, reOne (oneOf ":-"), RE.star isSpacePy])
                     (rePlus isSpacePy))
    , RE.grp 5 (RE.starL isDotPy)
    , RE.star isSpacePy
    , RE.eol
    ]

/-- parser.py _RX_HEADER_ANY: the same header shape without anchors or
groups, used to split lines where OCR glued multiple events together. -/
def rxHeaderAny : RE :=
  reCat
    [ reDayWord
    , reDaySep
    , RE.cls isDigitPy 1 6
    , reDayHourSep
    , RE.cls isDigitPy 1 2
    , reTimeSep
    , RE.cls isDigitPy 1 2
    , RE.opt (reCat [RE.star isSpacePy, reOne (oneOf ":."), RE.star isSpacePy,
                     RE.cls isDigitPy 2 3])
    ]

/-- The captures extracted by _RX_HEADER. -/
structure HeaderGroups where
  day : List Char
  hour : List Char
  minute : List Char
  second : Option (List Char)
  msg : List Char
  deriving Repr, DecidableEq

/-- Run _RX_HEADER.match on a line and extract the named groups. -/
def rxHeaderMatch (s : List Char) : Option HeaderGroups :=
  match RE.reMatch rxHeader s with
  | none => none
  | some st =>
    some { day := (RE.capOf st 1).getD []
           hour := (RE.capOf st 2).getD []
           minute := (RE.capOf st 3).getD []
           second := RE.capOf st 4
           msg := (RE.capOf st 5).getD [] }

/-- Numeric value of a digit string. -/
def digitsVal (s : List Char) : Nat :=
  s.foldl (fun a c => a * 10 + (c.toNat - 48)) 0

/-- parser.py _parse_int: int of the stripped string, or the default
when the string is not an integer literal. -/
def parseIntPy (s : List Char) (dflt : Int) : Int :=
  let t := pyStrip s
  match t with
  | '+' :: r => if r ≠ [] ∧ r.all isDigitPy then (digitsVal r : Int) else dflt
  | '-' :: r => if r ≠ [] ∧ r.all isDigitPy then -(digitsVal r : Int) else dflt
  | r => if r ≠ [] ∧ r.all isDigitPy then (digitsVal r : Int) else dflt

/-- parser.py _clamp_int. -/
def clampInt (x lo hi : Int) : Int := max lo (min hi x)

/-- Decimal digit character of n < 10. -/
def digitChar (n : Nat) : Char := Char.ofNat (48 + n)

/-- Python format 02d for the clamped time components (values < 100). -/
def fmt2 (n : Nat) : List Char := [digitChar (n / 10), digitChar (n % 10)]

/-- parser.py _normalize_time: clamp hour to 0-23, minute and second to
0-59; a missing or blank seconds token means 0; a seconds token of
three or more digits keeps only its last two. -/
def normalizeTime (hourS minuteS : List Char) (secondS : Option (List Char)) :
    List Char :=
  let hh := clampInt (parseIntPy hourS 0) 0 23
  let mm := clampInt (parseIntPy minuteS 0) 0 59
  let ss :=
    match secondS with
    | none => (0 : Int)
    | some sec =>
      if pyStrip sec = [] then 0
      else
        let secRaw := pyStrip sec
        let secRaw := if secRaw.length ≥ 3 then secRaw.drop (secRaw.length - 2) else secRaw
        clampInt (parseIntPy secRaw 0) 0 59
  fmt2 hh.toNat ++ ':' :: fmt2 mm.toNat ++ ':' :: fmt2 ss.toNat

/-- Worker of collapseWS: the flag records being inside a whitespace
run whose single replacement space was already emitted. -/
def collapseWSAux (inRun : Bool) : List Char → List Char
  | [] => []
  | c :: t =>
      if isSpacePy c then
        if inRun then collapseWSAux true t else ' ' :: collapseWSAux true t
      else c :: collapseWSAux false t

/-- Python re.sub of one-or-more whitespace with a single space. -/
def collapseWS (s : List Char) : List Char := collapseWSAux false s

/-- Python str.strip(chars) with an explicit character set. -/
def pyStripChars (cs : List Char) (s : List Char) : List Char :=
  ((s.dropWhile cs.contains).reverse.dropWhile cs.contains).reverse

/-- Python substring containment (needle in hay). -/
def containsSub (hay needle : List Char) : Bool :=
  needle.isPrefixOf hay ||
    match hay with
    | [] => false
    | _ :: t => containsSub t needle

/-- The noise pattern [-dash-dash-underscore-dot]+ used by the stitcher,
fragment detector and noise filter (the class holds the ASCII hyphen,
en dash, em dash, underscore and period). -/
def rxDashNoise : RE := rePlus (oneOf "-–—_.")

/-- All non-overlapping matches of a pattern, as (start, length) pairs:
re.finditer restricted to patterns that consume at least one character
(true of _RX_HEADER_ANY).  fuel bounds the scan and is instantiated
with the input length. -/
def findIter (re : RE) (prev : Option Char) (s : List Char) (pos fuel : Nat) :
    List (Nat × Nat) :=
  match fuel with
  | 0 => []
  | fuel + 1 =>
    match RE.reSearchAux re prev s with
    | none => []
    | some (i, st) =>
      let len := (s.length - i) - st.rem.length
      if len = 0 then []
      else
        let consumed := s.take (i + len)
        (pos + i, len) ::
          findIter re consumed.getLast? st.rem (pos + i + len) fuel

/-- parser.py stitch_wrapped_lines._split_multi_headers: split a raw
line at each embedded header match; a non-empty text chunk before the
first header is kept as a leading (non-header) part. -/
def splitMultiHeaders (line : List Char) : List (List Char) :=
  let s2 := pyStrip line
  if s2 = [] then []
  else
    let ms := findIter rxHeaderAny none s2 0 (s2.length + 1)
    match ms with
    | [] => [s2]
    | (st0, _) :: _ =>
      let lead := if st0 > 0 then
          (let p := pyStrip (s2.take st0); if p = [] then [] else [p])
        else []
      let starts := ms.map (·.1)
      let bounds := starts.zip (starts.drop 1 ++ [s2.length])
      let parts := lead ++ bounds.map (fun b => pyStrip ((s2.take b.2).drop b.1))
      parts.filter (fun p => p ≠ [])

/-- parser.py stitch_wrapped_lines: a header match starts a new logical
line; any other chunk is space-appended to the current logical line. -/
def stitchWrappedLines (lines : List (List Char)) : List (List Char) :=
  let step := fun (out : List (List Char)) (raw : List Char) =>
    let s := pyStrip raw
    if s = [] then out
    else if (RE.reFull rxDashNoise s).isSome then out
    else
      (splitMultiHeaders s).foldl
        (fun out p =>
          if p = [] then out
          else if (RE.reMatch rxHeader p).isSome then out ++ [p]
          else
            match out.getLast? with
            | some lastLine => out.dropLast ++ [pyStrip (lastLine ++ ' ' :: p)]
            | none => out ++ [p])
        out
  lines.foldl step []

/-- One parsed header event (the dict produced by parse_header_lines). -/
structure HEvent where
  arkDay : Int
  arkTime : List Char
  message : List Char
  rawLine : List Char
  deriving Repr, DecidableEq

/-- parser.py _canonical_victim: collapse whitespace, drop a leading
"Your ", and strip trailing punctuation/whitespace. -/
def canonicalVictim (s : List Char) : List Char :=
  let v := collapseWS (pyStrip s)
  let v := match RE.reMatch (RE.seq (litCI "Your") (rePlus isSpacePy)) v with
           | some st => st.rem
           | none => v
  pyStripChars (' ' :: '!' :: '.' :: '\t' :: '\r' :: '\n' :: []) v

/-- Pattern of _extract_victim_from_starved:
caret (?P_v_.+?) s+ starved s+ to s+ death !? dollar. -/
def rxStarved : RE :=
  reCat [RE.grp 1 (rePlusL isDotPy), rePlus isSpacePy, litCI "starved",
         rePlus isSpacePy, litCI "to", rePlus isSpacePy, litCI "death",
         RE.opt (litCS "!"), RE.eol]

/-- parser.py _extract_victim_from_starved. -/
def extractVictimFromStarved (msg : List Char) : Option (List Char) :=
  match RE.reMatch rxStarved (pyStrip msg) with
  | none => none
  | some st => some (canonicalVictim ((RE.capOf st 1).getD []))

/-- Search pattern b was s+ killed b. -/
def rxWasKilledSearch : RE :=
  reCat [RE.wb, litCI "was", rePlus isSpacePy, litCI "killed", RE.wb]

/-- Search pattern b was s+ killed s+ by b. -/
def rxWasKilledBySearch : RE :=
  reCat [RE.wb, litCI "was", rePlus isSpacePy, litCI "killed",
         rePlus isSpacePy, litCI "by", RE.wb]

/-- Match pattern caret (?P_v_.+?) s+ was s+ killed b .* dollar. -/
def rxKilledVictim : RE :=
  reCat [RE.grp 1 (rePlusL isDotPy), rePlus isSpacePy, litCI "was",
         rePlus isSpacePy, litCI "killed", RE.wb, RE.star isDotPy, RE.eol]

/-- parser.py _extract_victim_from_killed: only "was killed" lines
without an explicit killer ("was killed by") are eligible. -/
def extractVictimFromKilled (msg : List Char) : Option (List Char) :=
  let s := pyStrip msg
  if ¬ RE.searches rxWasKilledSearch s then none
  else if RE.searches rxWasKilledBySearch s then none
  else
    match RE.reMatch rxKilledVictim s with
    | none => none
    | some st => some (canonicalVictim ((RE.capOf st 1).getD []))

/-- parser.py _merge_starved_killed_pairs: collect the keys of starved
lines, then drop every paired unattributed kill line. -/
def mergeStarvedKilledPairs (events : List HEvent) : List HEvent :=
  if events = [] then events
  else
    let starvedKeys : List (Int × List Char × List Char) :=
      events.filterMap (fun e =>
        (extractVictimFromStarved e.message).bind (fun victim =>
          if victim = [] then none
          else some (e.arkDay, e.arkTime, victim)))
    events.filter (fun e =>
      match extractVictimFromKilled e.message with
      | some victim =>
          if victim = [] then true
          else ¬ starvedKeys.contains (e.arkDay, e.arkTime, victim)
      | none => true)

/-- parser.py _ACTION_KWS. -/
def actionKws : List (List Char) :=
  [ "was killed".data, "was destroyed".data, "was demolished".data,
    "decayed and was destroyed".data, "starved to death".data,
    "destroyed their".data, "tamed a".data, "claimed a".data,
    "was born".data, "hatched".data, "joined the tribe".data,
    "left the tribe".data, "was kicked".data, "uploaded".data,
    "downloaded".data, "was released from a cryopod".data,
    "froze".data, "unfroze".data ]

/-- parser.py _has_action_keywords. -/
def hasActionKeywords (msg : List Char) : Bool :=
  let m := pyLower msg
  actionKws.any (fun k => containsSub m k)

/-- Word with boundaries on both sides (backslash-b w backslash-b). -/
def wbWord (w : String) : RE := reCat [RE.wb, litCI w, RE.wb]

/-- Pattern of _looks_like_continuation:
caret (?:Lvl b | - s* Lvl b | d+ b). -/
def rxContinuation : RE :=
  RE.alt (RE.seq (litCI "Lvl") RE.wb)
    (RE.alt (reCat [litCS "-", RE.star isSpacePy, litCI "Lvl", RE.wb])
            (RE.seq (rePlus isDigitPy) RE.wb))

/-- parser.py _looks_like_continuation. -/
def looksLikeContinuation (msg : List Char) : Bool :=
  let s := pyStrip msg
  match s with
  | [] => false
  | c :: _ =>
      if (oneOf "([\x7b'\x22") c then true
      else if c = '-' then true
      else RE.tests rxContinuation s

/-- Pattern of the trailing-word check in _looks_like_fragment:
(?:b Lvl b | b was b | b by b | b Tribe b) s* dollar, used with search. -/
def rxTrailingWord : RE :=
  reCat [RE.alt (wbWord "Lvl")
           (RE.alt (wbWord "was") (RE.alt (wbWord "by") (wbWord "Tribe"))),
         RE.star isSpacePy, RE.eol]

/-- parser.py _looks_like_fragment. -/
def looksLikeFragment (msg : List Char) : Bool :=
  let s := pyStrip msg
  if s = [] then true
  else if s.length ≤ 2 then true
  else if s = ['-'] ∨ s = ['—'] ∨ s = ['–'] ∨ s = ['_'] then true
  else if (RE.reFull rxDashNoise s).isSome then true
  else if s.length < 20 ∧ ¬ hasActionKeywords s then true
  else if RE.searches rxTrailingWord s then true
  else if s.getLast? = some '-' then true
  else false

/-- parser.py _merge_same_timestamp_fragments, with the accumulated
output kept in reverse so the in-place update of its last entry is the
head.  Raw lines are joined with a pipe separator when the current raw
text is not already contained in the previous one. -/
def mergeSameTsStep (racc : List HEvent) (e : HEvent) : List HEvent :=
  match racc with
  | [] => [e]
  | prev :: rest =>
    let sameTs := prev.arkDay = e.arkDay ∧ prev.arkTime = e.arkTime
    if ¬ sameTs then e :: racc
    else
      let prevMsg := pyStrip prev.message
      let curMsg := pyStrip e.message
      if curMsg = [] then racc
      else if looksLikeFragment prevMsg ∨ looksLikeContinuation curMsg then
        let mergedMsg := pyStrip (prevMsg ++ ' ' :: curMsg)
        let prevRaw := pyStrip prev.rawLine
        let curRaw := pyStrip e.rawLine
        let newRaw :=
          if curRaw ≠ [] ∧ ¬ containsSub prevRaw curRaw then
            pyStripChars [' ', '|'] (prevRaw ++ ' ' :: '|' :: ' ' :: curRaw)
          else prev.rawLine
        { prev with message := mergedMsg, rawLine := newRaw } :: rest
      else if looksLikeFragment curMsg ∧ ¬ hasActionKeywords prevMsg then
        { prev with message := pyStrip (prevMsg ++ ' ' :: curMsg) } :: rest
      else e :: racc

/-- parser.py _merge_same_timestamp_fragments. -/
def mergeSameTimestampFragments (events : List HEvent) : List HEvent :=
  (events.foldl mergeSameTsStep []).reverse

/-- Pattern of the time-like noise check:
d{1,2}[:.,]d{2}(?:[:.,]d{2})?, used with fullmatch. -/
def rxTimeNoise : RE :=
  reCat [RE.cls isDigitPy 1 2, reOne (oneOf ":.,"), RE.cls isDigitPy 2 2,
         RE.opt (RE.seq (reOne (oneOf ":.,")) (RE.cls isDigitPy 2 2))]

/-- parser.py _is_noise_message. -/
def isNoiseMessage (msg : List Char) : Bool :=
  let s := pyStrip msg
  if s = [] then true
  else if s = ['-'] ∨ s = ['—'] ∨ s = ['–'] ∨ s = ['_'] then true
  else if (RE.reFull rxDashNoise s).isSome then true
  else if (RE.reFull rxTimeNoise s).isSome then true
  else false

/-- parser.py _drop_noise_events. -/
def dropNoiseEvents (events : List HEvent) : List HEvent :=
  events.filter (fun e => ¬ isNoiseMessage e.message)

/-- parser.py _norm_cmp: lower-case, collapse whitespace, strip, and
remove quote characters (double quote, single quote, backtick). -/
def normCmp (s : List Char) : List Char :=
  let t := pyStrip (collapseWS (pyLower s))
  t.filter (fun c => ¬ (c = '\x22' ∨ c = '\x27' ∨ c = Char.ofNat 96))

/-- parser.py _drop_fragment_substrings: drop an event when the next
event has the same timestamp and strictly contains its normalized text,
and the dropped one looks like a fragment without action keywords. -/
def dropFragmentSubstrings : List HEvent → List HEvent
  | [] => []
  | [e] => [e]
  | e1 :: e2 :: rest =>
    let sameTs := e1.arkDay = e2.arkDay ∧ e1.arkTime = e2.arkTime
    let a := normCmp (pyStrip e1.message)
    let b := normCmp (pyStrip e2.message)
    if sameTs ∧ a ≠ [] ∧ b ≠ [] ∧ a ≠ b ∧ containsSub b a ∧
        looksLikeFragment (pyStrip e1.message) ∧
        ¬ hasActionKeywords (pyStrip e1.message) then
      dropFragmentSubstrings (e2 :: rest)
    else e1 :: dropFragmentSubstrings (e2 :: rest)

/-- The per-line body of parse_header_lines: match the stripped line
against _RX_HEADER, reject a non-positive day, normalize the time,
strip the message and whitespace-collapse the raw line. -/
def parseHeaderLine (s : List Char) : Option HEvent :=
  match rxHeaderMatch (pyStrip s) with
  | none => none
  | some g =>
    let day := parseIntPy g.day 0
    if day ≤ 0 then none
    else
      some { arkDay := day, arkTime := normalizeTime g.hour g.minute g.second,
             message := pyStrip g.msg, rawLine := pyStrip (collapseWS s) }

/-- parser.py parse_header_lines: match each stitched line against
_RX_HEADER, reject non-positive days, normalize the time, then apply
the four post-processing passes in order. -/
def parseHeaderLines (lines : List (List Char)) : List HEvent :=
  dropFragmentSubstrings
    (dropNoiseEvents
      (mergeSameTimestampFragments
        (mergeStarvedKilledPairs (lines.filterMap parseHeaderLine))))

/-! ## Event classifier (stage_api/tribelog/classify.py)

Every pattern below transliterates one compiled regex of classify.py;
group numbers follow the order of the named groups in the source.
Shared shorthand: spP is one-or-more whitespace, spS any whitespace,
dotL a lazy one-or-more of any character, numP one-or-more digits. -/

/-- Replace an anchored match at the start of the string with nothing
(re.sub with a caret-anchored pattern). -/
def subAnchored (re : RE) (s : List Char) : List Char :=
  match RE.reMatch re s with
  | some st => st.rem
  | none => s

/-- Remove the leftmost match of a pattern (re.sub with count 1). -/
def subFirst (re : RE) (s : List Char) : List Char :=
  match RE.reSearchAux re none s with
  | some (i, st) => s.take i ++ st.rem
  | none => s

/-- classify.py _norm_spaces. -/
def normSpaces (s : List Char) : List Char := collapseWS (pyStrip s)

/-- classify.py _strip_trailing_punct: drop the trailing run of
period/bang/colon/comma/semicolon/whitespace, then strip. -/
def stripTrailingPunct (s : List Char) : List Char :=
  let t := pyStrip s
  pyStrip ((t.reverse.dropWhile (fun c => oneOf ".!:,;" c || isSpacePy c)).reverse)

/-- classify.py _clean_entity: collapse spaces, drop a leading
"Your ", strip trailing punctuation. -/
def cleanEntity (s : List Char) : List Char :=
  stripTrailingPunct
    (subAnchored (RE.seq (litCI "Your") (rePlus isSpacePy)) (normSpaces s))

/-- Pattern s* ( [not-paren]* ) s* dollar of _clean_actor's annotation
removal. -/
def rxTrailingParen : RE :=
  reCat [RE.star isSpacePy, litCS "(", RE.star (fun c => c ≠ ')'),
         litCS ")", RE.star isSpacePy, RE.eol]

/-- classify.py _clean_actor: collapse spaces, drop a trailing
parenthesized annotation, strip trailing punctuation. -/
def cleanActor (s : List Char) : List Char :=
  stripTrailingPunct (subFirst rxTrailingParen (normSpaces s))

/-- Python-style string fallback: a or b (empty means falsy). -/
def strOr (a b : List Char) : List Char := if a = [] then b else a

/-- One-or-more whitespace. -/
def spP : RE := rePlus isSpacePy
/-- Any amount of whitespace. -/
def spS : RE := RE.star isSpacePy
/-- Lazy one-or-more of any character (Python .+?). -/
def dotL : RE := rePlusL isDotPy
/-- One-or-more digits. -/
def numP : RE := rePlus isDigitPy
/-- Common tail s* !? s* dollar. -/
def reTailBang : RE := reCat [spS, RE.opt (litCS "!"), spS, RE.eol]
/-- The dash-or-space class [-s] of the decay/mesh patterns. -/
def dashSp (c : Char) : Bool := c = '-' || isSpacePy c

/-- RX_AUTO_DECAY. -/
def rxAutoDecay : RE :=
  reCat [RE.wb, litCI "auto", RE.opt (reOne dashSp), litCI "decay", RE.wb,
         RE.star isDotPy, RE.wb,
         RE.grp 1 (RE.alt (litCI "destroyed") (litCI "decay destroyed")), RE.wb]

/-- RX_ANTIMESH. -/
def rxAntimesh : RE :=
  RE.alt (reCat [RE.wb, litCI "anti", RE.opt (reOne dashSp), litCI "mesh", RE.wb])
         (reCat [RE.wb, litCI "mesh", RE.wb, RE.star isDotPy, RE.wb,
                 litCI "destroyed", RE.wb])

/-- RX_DECAYED_DESTROYED. -/
def rxDecayedDestroyed : RE :=
  reCat [RE.wb, litCI "decayed", spP, litCI "and", spP, litCI "was", spP,
         litCI "destroyed", RE.wb]

/-- RX_YOUR_STRUCT_DECAYED (group 1 = structure). -/
def rxYourStructDecayed : RE :=
  reCat [litCI "Your", spP, RE.grp 1 dotL, spP, litCI "decayed", spP,
         litCI "and", spP, litCI "was", spP, litCI "destroyed", reTailBang]

/-- RX_YOUR_STRUCT_DEMOLISHED (1 = structure, 2 = actor). -/
def rxYourStructDemolished : RE :=
  reCat [litCI "Your", spP, RE.grp 1 dotL, spP, litCI "was", spP,
         litCI "demolished", spP, litCI "by", spP, RE.grp 2 dotL, reTailBang]

/-- RX_JOIN_LEFT_TRIBE (1 = member, 2 = action). -/
def rxJoinLeftTribe : RE :=
  reCat [RE.grp 1 dotL, spP, RE.grp 2 (RE.alt (litCI "joined") (litCI "left")),
         spP, litCI "the", spP, litCI "tribe", reTailBang]

/-- RX_KICKED_FROM_TRIBE (1 = member, 2 = actor). -/
def rxKickedFromTribe : RE :=
  reCat [RE.grp 1 dotL, spP, litCI "was", spP, litCI "kicked", spP,
         litCI "from", spP, litCI "the", spP, litCI "tribe", spP, litCI "by",
         spP, RE.grp 2 dotL, reTailBang]

/-- RX_PROMOTED_DEMOTED (1 = member, 2 = action, 3 = rank). -/
def rxPromotedDemoted : RE :=
  reCat [RE.grp 1 dotL, spP, litCI "was", spP,
         RE.grp 2 (RE.alt (litCI "promoted") (litCI "demoted")), spP,
         litCI "to", spP, RE.grp 3 dotL, reTailBang]

/-- RX_TRIBE_RENAMED (1 = name). -/
def rxTribeRenamed : RE :=
  reCat [spS, litCI "Tribe", spP, litCI "Name", spP, litCI "was", spP,
         litCI "changed", spP, litCI "to", spP, RE.grp 1 dotL, reTailBang]

/-- The segment s+ - s+ Lvl s+ shared by the official templates. -/
def reDashLvl : RE := reCat [spP, litCS "-", spP, litCI "Lvl", spP]

/-- RX_TAMED_OFFICIAL (1 = species, 2 = lvl). -/
def rxTamedOfficial : RE :=
  reCat [litCI "Your", spP, litCI "Tribe", spP, litCI "Tamed", spP, litCI "a",
         spP, RE.grp 1 dotL, reDashLvl, RE.grp 2 numP, reTailBang]

/-- RX_CLAIMED_OFFICIAL (1 = name, 2 = lvl, 3 = species). -/
def rxClaimedOfficial : RE :=
  reCat [litCI "Your", spP, litCI "Tribe", spP, litCI "Claimed", spP,
         litCI "a", spP, RE.grp 1 dotL, reDashLvl, RE.grp 2 numP, spS,
         litCS "(", RE.grp 3 dotL, litCS ")", reTailBang]

/-- RX_BIRTH_HATCH (1 = species, 2 = mode). -/
def rxBirthHatch : RE :=
  reCat [litCI "A", spP, RE.grp 1 dotL, spP, litCI "was", spP,
         RE.grp 2 (RE.alt (litCI "born") (litCI "hatched")), reTailBang]

/-- The victim template Your (name) - Lvl (lvl) ((species)) shared by
the cryopod/kill patterns: groups v, v+1, v+2. -/
def reVictimTemplate (v : Nat) : RE :=
  reCat [litCI "Your", spP, RE.grp v dotL, reDashLvl, RE.grp (v + 1) numP,
         spS, litCS "(", RE.grp (v + 2) dotL, litCS ")"]

/-- RX_CRYOPOD_RELEASED (1 = victim_name, 2 = victim_lvl, 3 = victim_species). -/
def rxCryopodReleased : RE :=
  reCat [reVictimTemplate 1, spP, litCI "was", spP, litCI "released", spP,
         litCI "from", spP, litCI "a", spP, litCI "Cryopod", reTailBang]

/-- RX_YOUR_DINO_KILLED_BY_PLAYER (1-3 victim, 4 = attacker_name,
5 = attacker_lvl, 6 = attacker_tribe). -/
def rxYourDinoKilledByPlayer : RE :=
  reCat [reVictimTemplate 1, spP, litCI "was", spP, litCI "killed", spP,
         litCI "by", spP, RE.grp 4 dotL, reDashLvl, RE.grp 5 numP, spS,
         litCS "(", RE.grp 6 dotL, litCS ")", reTailBang]

/-- RX_YOUR_DINO_KILLED_BY_WILD (1-3 victim, 4 = wild_species, 5 = wild_lvl). -/
def rxYourDinoKilledByWild : RE :=
  reCat [reVictimTemplate 1, spP, litCI "was", spP, litCI "killed", spP,
         litCI "by", spP, litCI "a", spP, RE.grp 4 dotL, reDashLvl,
         RE.grp 5 numP, reTailBang]

/-- RX_YOUR_DINO_KILLED_ENV (1-3 victim). -/
def rxYourDinoKilledEnv : RE :=
  reCat [reVictimTemplate 1, spP, litCI "was", spP, litCI "killed", reTailBang]

/-- RX_PLAYER_KILLED_BY_PLAYER (1 = victim_name, 2 = attacker_name,
3 = attacker_lvl, 4 = attacker_tribe). -/
def rxPlayerKilledByPlayer : RE :=
  reCat [RE.grp 1 dotL, spP, litCI "was", spP, litCI "killed", spP,
         litCI "by", spP, RE.grp 2 dotL, reDashLvl, RE.grp 3 numP, spS,
         litCS "(", RE.grp 4 dotL, litCS ")", reTailBang]

/-- RX_ORP_PREVENTED. -/
def rxOrpPrevented : RE :=
  reCat [spS, litCI "An", spP, litCI "attack", spP, litCI "was", spP,
         litCI "prevented", spP, litCI "by", spP, litCI "Offline", spP,
         litCI "Raid", spP, litCI "Protection", reTailBang]

/-- RX_DEMOLISHED (1 = actor). -/
def rxDemolished : RE :=
  reCat [RE.grp 1 dotL, spP, litCI "demolished", RE.wb]

/-- RX_DESTROYED_BY (1 = actor), used with search. -/
def rxDestroyedBy : RE :=
  reCat [RE.wb, litCI "was", spP, litCI "destroyed", spP, litCI "by", spP,
         RE.grp 1 dotL, spS,
         RE.alt (litCS "!") (RE.alt (litCS ".") RE.eol)]

/-- RX_DESTROYED, used with search. -/
def rxDestroyed : RE :=
  reCat [RE.wb, litCI "was", spP, litCI "destroyed", RE.wb]

/-- RX_ENEMY_DESTROYED, used with search. -/
def rxEnemyDestroyed : RE :=
  reCat [RE.wb, litCI "destroyed", RE.wb, spP, litCI "their", RE.wb]

/-- RX_TRIBEMEMBER_KILLED_BY (1 = victim, 2 = actor). -/
def rxTribememberKilledBy : RE :=
  reCat [spS, litCI "Tribemember", spP, RE.grp 1 dotL, spP, litCI "was", spP,
         litCI "killed", spP, litCI "by", spP, RE.grp 2 dotL, reTailBang]

/-- RX_YOUR_TRIBE_KILLED (1 = victim). -/
def rxYourTribeKilled : RE :=
  reCat [spS, litCI "Your", spP, litCI "Tribe", spP, litCI "killed", spP,
         RE.grp 1 dotL, reTailBang]

/-- RX_WAS_KILLED_BY (1 = victim, 2 = actor). -/
def rxWasKilledBy : RE :=
  reCat [RE.grp 1 dotL, spP, litCI "was", spP, litCI "killed", spP,
         litCI "by", spP, RE.grp 2 dotL, reTailBang]

/-- RX_WAS_KILLED (1 = victim), used with both search and match. -/
def rxWasKilled : RE :=
  reCat [RE.grp 1 dotL, spP, litCI "was", spP, litCI "killed", RE.wb]

/-- RX_STARVED (1 = victim). -/
def rxStarvedCls : RE :=
  reCat [RE.grp 1 dotL, spP, litCI "starved", spP, litCI "to", spP,
         litCI "death", reTailBang]

/-- RX_FROZE (1 = actor, 2 = victim). -/
def rxFroze : RE :=
  reCat [RE.grp 1 dotL, spP, litCI "froze", spP, RE.grp 2 dotL, spS, RE.eol]

/-- RX_CRYOPOD, used with search. -/
def rxCryopod : RE := reCat [RE.wb, litCI "cryopod", RE.wb]

/-- RX_CLAIMED (1 = actor, 2 = what). -/
def rxClaimed : RE :=
  reCat [RE.grp 1 dotL, spP, litCI "claimed", spP, RE.grp 2 dotL, reTailBang]

/-- RX_UNCLAIMED, used with search. -/
def rxUnclaimed : RE := reCat [RE.wb, litCI "unclaimed", RE.wb]

/-- RX_TAMED, used with search. -/
def rxTamed : RE := reCat [RE.wb, litCI "tamed", spP, litCI "a", RE.wb]

/-- RX_UPLOADED (1 = actor). -/
def rxUploaded : RE := reCat [RE.grp 1 dotL, spP, litCI "uploaded", RE.wb]

/-- RX_DOWNLOADED (1 = actor). -/
def rxDownloaded : RE := reCat [RE.grp 1 dotL, spP, litCI "downloaded", RE.wb]

/-- RX_TRANSFERRED, used with search. -/
def rxTransferred : RE := reCat [RE.wb, litCI "transferred", RE.wb]

/-- RX_ADDED_TO_TRIBE (1 = member, 2 = actor). -/
def rxAddedToTribe : RE :=
  reCat [RE.grp 1 dotL, spP, litCI "was", spP, litCI "added", spP,
         litCI "to", spP, litCI "the", spP, litCI "Tribe", spP, litCI "by",
         spP, RE.grp 2 dotL, reTailBang]

/-- RX_LEFT_TRIBE (1 = member). -/
def rxLeftTribe : RE :=
  reCat [RE.grp 1 dotL, spP, litCI "left", spP, litCI "the", spP,
         litCI "Tribe", reTailBang]

/-- RX_REMOVED_FROM_TRIBE (1 = member, 2 = optional actor). -/
def rxRemovedFromTribe : RE :=
  reCat [RE.grp 1 dotL, spP, litCI "was", spP, litCI "removed", spP,
         litCI "from", spP, litCI "the", spP, litCI "Tribe",
         RE.opt (reCat [spP, litCI "by", spP, RE.grp 2 dotL]), reTailBang]

/-- RX_PROMOTED_ADMIN (1 = member, 2 = actor). -/
def rxPromotedAdmin : RE :=
  reCat [RE.grp 1 dotL, spP, litCI "was", spP, litCI "promoted", spP,
         litCI "to", spP, litCI "a", spP, litCI "Tribe", spP, litCI "Admin",
         spP, litCI "by", spP, RE.grp 2 dotL, reTailBang]

/-- RX_OWNER_CHANGED (1 = new_owner). -/
def rxOwnerChanged : RE :=
  reCat [spS, litCI "Tribe", spP, litCI "Owner", spP, litCI "was", spP,
         litCI "changed", spP, litCI "to", spP, RE.grp 1 dotL, reTailBang]

/-- RX_SET_RANK_GROUP (1 = actor), used with search. -/
def rxSetRankGroup : RE :=
  reCat [RE.wb, litCI "set", spP, litCI "to", spP, litCI "Rank", spP,
         litCI "Group", RE.wb, RE.star isDotPy, RE.wb, litCI "by", RE.wb,
         spP, RE.grp 1 dotL, reTailBang]

/-- RX_TEK_TELEPORTER_PRIVACY (1 = actor, 2 = mode); the source runs
.search on this caret-anchored pattern, which matches exactly when the
anchored match at the start succeeds. -/
def rxTekTeleporterPrivacy : RE :=
  reCat [RE.grp 1 dotL, spP, litCI "set", spP, litCS "(", numP, litCS ")",
         spP, dotL, litCS "(", spS, litCI "Small", spP, litCI "Tek", spP,
         litCI "Teleporter", spS, litCS ")", spP, litCI "to", spP,
         RE.grp 2 (RE.alt (litCI "public") (litCI "private")), RE.wb]

/-- The ( [not-paren]* - s* [not-paren]* ) heuristic of
_is_probably_player, used with search. -/
def rxProbablyPlayer : RE :=
  reCat [litCS "(", RE.star (fun c => c ≠ ')'), litCS "-", spS,
         RE.star (fun c => c ≠ ')'), litCS ")"]

/-- classify.py _is_probably_player. -/
def isProbablyPlayer (victim : List Char) : Bool :=
  RE.searches rxProbablyPlayer victim

/-- The s - s* Lvl s+ d+ s* ( guard inside the player-killed branch. -/
def rxDinoTemplateGuard : RE :=
  reCat [reOne isSpacePy, litCS "-", spS, litCI "Lvl", spP, numP, spS,
         litCS "("]

/-- The b starved b search of the unattributed-kill branch. -/
def rxStarvedWord : RE := reCat [RE.wb, litCI "starved", RE.wb]

/-- The classifier's runtime configuration: the tiered-structure-severity
toggle (env CLASSIFY_TIERED_STRUCTURE_SEVERITY) and the parsed, lower-cased
critical-structure keyword list (env CLASSIFY_CRITICAL_STRUCT_KEYWORDS). -/
structure ClassifyCfg where
  tieredStructureSeverity : Bool
  criticalStructKeywords : List (List Char)

/-- classify.py _contains_any. -/
def containsAny (haystack : List Char) (needles : List (List Char)) : Bool :=
  let h := pyLower haystack
  needles.any (fun n => n ≠ [] && containsSub h n)

/-- A classification result: (category, severity, actor). -/
abbrev Trip := List Char × List Char × List Char

/-- Capture group n of a state, as a Python string (None becomes empty,
matching the "or ''" guards of the source). -/
def gp (st : MSt) (n : Nat) : List Char := (RE.capOf st n).getD []

/-- Branch 1 of classify_message: auto-decay / decayed-destroyed. -/
def ruleAutoDecay (m : List Char) : Option Trip :=
  if RE.searches rxAutoDecay m || RE.searches rxDecayedDestroyed m ||
      RE.tests rxYourStructDecayed m then
    let structName :=
      match RE.reMatch rxYourStructDecayed m with
      | some st => cleanEntity (gp st 1)
      | none => []
    some ("AUTO_DECAY_DESTROYED".data, "WARNING".data,
          strOr structName "Environment".data)
  else none

/-- Branch 2: anti-mesh destruction. -/
def ruleAntimesh (m : List Char) : Option Trip :=
  if RE.searches rxAntimesh m then
    some ("ANTIMESH_DESTROYED".data, "WARNING".data, "Environment".data)
  else none

/-- Branch 3: Tek Teleporter privacy change (the source searches a
caret-anchored pattern, equivalent to an anchored match). -/
def ruleTekTeleporter (m : List Char) : Option Trip :=
  (RE.reMatch rxTekTeleporterPrivacy m).map (fun mt =>
    ("TEK_TELEPORTER_PRIVACY_CHANGED".data, "WARNING".data,
     cleanActor (gp mt 1)))

/-- Branch 4: offline raid protection. -/
def ruleOrp (m : List Char) : Option Trip :=
  if RE.tests rxOrpPrevented m then
    some ("ORP_PREVENTED".data, "INFO".data, "Environment".data)
  else none

/-- Branch 5: cryopod release. -/
def ruleCryopodReleased (m : List Char) : Option Trip :=
  (RE.reMatch rxCryopodReleased m).map (fun st =>
    ("CRYOPOD_RELEASED".data, "INFO".data,
     strOr (cleanEntity (gp st 1)) "Environment".data))

/-- Branch 6: birth / hatch. -/
def ruleBirthHatch (m : List Char) : Option Trip :=
  (RE.reMatch rxBirthHatch m).map (fun st =>
    ("BIRTH_HATCHED".data, "INFO".data,
     strOr (cleanEntity (gp st 1)) "Environment".data))

/-- Branch 7: official tame. -/
def ruleTamedOfficial (m : List Char) : Option Trip :=
  (RE.reMatch rxTamedOfficial m).map (fun st =>
    ("TAME_TAMED".data, "SUCCESS".data,
     strOr (cleanEntity (gp st 1)) "Your Tribe".data))

/-- Branch 8: official claim. -/
def ruleClaimedOfficial (m : List Char) : Option Trip :=
  (RE.reMatch rxClaimedOfficial m).map (fun st =>
    ("TAME_CLAIMED".data, "SUCCESS".data,
     strOr (cleanEntity (gp st 1)) "Your Tribe".data))

/-- Branch 9: starved to death. -/
def ruleStarved (m : List Char) : Option Trip :=
  (RE.reMatch rxStarvedCls m).map (fun st =>
    ("TAME_STARVED".data, "WARNING".data,
     strOr (cleanEntity (gp st 1)) "Environment".data))

/-- Branch 10: froze. -/
def ruleFroze (m : List Char) : Option Trip :=
  (RE.reMatch rxFroze m).map (fun st =>
    ("TAME_FROZE".data, "INFO".data,
     strOr (cleanActor (gp st 1)) "Environment".data))

/-- Branch 11: claimed. -/
def ruleClaimed (m : List Char) : Option Trip :=
  (RE.reMatch rxClaimed m).map (fun st =>
    ("TAME_CLAIMED".data, "SUCCESS".data,
     strOr (cleanActor (gp st 1)) "Environment".data))

/-- Branch 12: unclaimed. -/
def ruleUnclaimed (m : List Char) : Option Trip :=
  if RE.searches rxUnclaimed m then
    some ("TAME_UNCLAIMED".data, "INFO".data, "Environment".data)
  else none

/-- Branch 13: tamed. -/
def ruleTamed (m : List Char) : Option Trip :=
  if RE.searches rxTamed m then
    some ("TAME_TAMED".data, "SUCCESS".data, "Environment".data)
  else none

/-- Branch 14: uploaded. -/
def ruleUploaded (m : List Char) : Option Trip :=
  (RE.reMatch rxUploaded m).map (fun st =>
    ("UPLOADED".data, "INFO".data,
     strOr (cleanActor (gp st 1)) "Environment".data))

/-- Branch 15: downloaded. -/
def ruleDownloaded (m : List Char) : Option Trip :=
  (RE.reMatch rxDownloaded m).map (fun st =>
    ("DOWNLOADED".data, "INFO".data,
     strOr (cleanActor (gp st 1)) "Environment".data))

/-- Branch 16: transferred. -/
def ruleTransferred (m : List Char) : Option Trip :=
  if RE.searches rxTransferred m then
    some ("TRANSFERRED".data, "INFO".data, "Environment".data)
  else none

/-- Branch 17: joined/left the tribe. -/
def ruleJoinLeft (m : List Char) : Option Trip :=
  (RE.reMatch rxJoinLeftTribe m).map (fun st =>
    let member := cleanEntity (gp st 1)
    let action := pyLower (pyStrip (gp st 2))
    if action = "joined".data then
      ("TRIBE_MEMBER_ADDED".data, "INFO".data, strOr member "Environment".data)
    else
      ("TRIBE_MEMBER_LEFT".data, "INFO".data, strOr member "Environment".data))

/-- Branch 18: kicked from the tribe. -/
def ruleKicked (m : List Char) : Option Trip :=
  (RE.reMatch rxKickedFromTribe m).map (fun st =>
    let member := cleanEntity (gp st 1)
    let actor := cleanActor (gp st 2)
    ("TRIBE_MEMBER_KICKED".data, "WARNING".data,
     strOr actor (strOr member "Environment".data)))

/-- Branch 19: promoted/demoted. -/
def rulePromotedDemoted (m : List Char) : Option Trip :=
  (RE.reMatch rxPromotedDemoted m).map (fun st =>
    ("TRIBE_RANK_CHANGED".data, "INFO".data,
     strOr (cleanEntity (gp st 1)) "Environment".data))

/-- Branch 20: tribe renamed. -/
def ruleTribeRenamed (m : List Char) : Option Trip :=
  (RE.reMatch rxTribeRenamed m).map (fun st =>
    ("TRIBE_RENAMED".data, "INFO".data,
     strOr (cleanEntity (gp st 1)) "Environment".data))

/-- Branch 21: added to the tribe. -/
def ruleAddedToTribe (m : List Char) : Option Trip :=
  (RE.reMatch rxAddedToTribe m).map (fun st =>
    ("TRIBE_MEMBER_ADDED".data, "INFO".data,
     strOr (cleanActor (gp st 2))
       (strOr (cleanEntity (gp st 1)) "Environment".data)))

/-- Branch 22: left the tribe (short form). -/
def ruleLeftTribe (m : List Char) : Option Trip :=
  (RE.reMatch rxLeftTribe m).map (fun st =>
    ("TRIBE_MEMBER_LEFT".data, "INFO".data,
     strOr (cleanEntity (gp st 1)) "Environment".data))

/-- Branch 23: removed from the tribe. -/
def ruleRemovedFromTribe (m : List Char) : Option Trip :=
  (RE.reMatch rxRemovedFromTribe m).map (fun st =>
    let member := cleanEntity (gp st 1)
    let actor := cleanActor (gp st 2)
    ("TRIBE_MEMBER_REMOVED".data, "CRITICAL".data,
     strOr actor (strOr member "Environment".data)))

/-- Branch 24: promoted to tribe admin. -/
def rulePromotedAdmin (m : List Char) : Option Trip :=
  (RE.reMatch rxPromotedAdmin m).map (fun st =>
    ("TRIBE_RANK_CHANGED".data, "INFO".data,
     strOr (cleanActor (gp st 2))
       (strOr (cleanEntity (gp st 1)) "Environment".data)))

/-- Branch 25: tribe ownership change. -/
def ruleOwnerChanged (m : List Char) : Option Trip :=
  (RE.reMatch rxOwnerChanged m).map (fun st =>
    ("TRIBE_OWNERSHIP_CHANGED".data, "CRITICAL".data,
     strOr (cleanEntity (gp st 1)) "Environment".data))

/-- Branch 26: rank group change. -/
def ruleSetRankGroup (m : List Char) : Option Trip :=
  (RE.reSearch rxSetRankGroup m).map (fun st =>
    ("TRIBE_RANK_CHANGED".data, "INFO".data,
     strOr (cleanActor (gp st 1)) "Environment".data))

/-- Branch 27: your structure demolished. -/
def ruleYourStructDemolished (m : List Char) : Option Trip :=
  (RE.reMatch rxYourStructDemolished m).map (fun st =>
    ("STRUCTURE_DEMOLISHED".data, "INFO".data,
     strOr (cleanActor (gp st 2)) "Environment".data))

/-- Branch 28: generic demolition. -/
def ruleDemolished (m : List Char) : Option Trip :=
  (RE.reMatch rxDemolished m).map (fun st =>
    ("STRUCTURE_DEMOLISHED".data, "INFO".data,
     strOr (cleanActor (gp st 1)) "Environment".data))

/-- Branch 29: enemy structure destroyed. -/
def ruleEnemyDestroyed (m : List Char) : Option Trip :=
  if RE.searches rxEnemyDestroyed m then
    some ("ENEMY_STRUCTURE_DESTROYED".data, "SUCCESS".data, "Environment".data)
  else none

/-- Branch 30: structure destroyed, with the optional tiered severity
downgrade controlled by the configuration. -/
def ruleDestroyed (cfg : ClassifyCfg) (m : List Char) : Option Trip :=
  if RE.searches rxDestroyed m then
    let actor :=
      match RE.reSearch rxDestroyedBy m with
      | some mb => cleanActor (gp mb 1)
      | none => "Environment".data
    let sev :=
      if cfg.tieredStructureSeverity then
        if containsAny m cfg.criticalStructKeywords then "CRITICAL".data
        else "WARNING".data
      else "CRITICAL".data
    some ("STRUCTURE_DESTROYED".data, sev, strOr actor "Environment".data)
  else none

/-- Branch 31: tribemember killed. -/
def ruleTribememberKilledBy (m : List Char) : Option Trip :=
  (RE.reMatch rxTribememberKilledBy m).map (fun st =>
    ("TRIBEMEMBER_WAS_KILLED".data, "CRITICAL".data,
     strOr (cleanActor (gp st 2))
       (strOr (cleanEntity (gp st 1)) "Environment".data)))

/-- Branch 32: player killed by player; falls through when the victim
looks like a dino template. -/
def rulePlayerKilledByPlayer (m : List Char) : Option Trip :=
  match RE.reMatch rxPlayerKilledByPlayer m with
  | none => none
  | some st =>
    let victim := cleanEntity (gp st 1)
    if ¬ RE.searches rxDinoTemplateGuard victim then
      let actor := cleanActor (gp st 2)
      some ("TRIBEMEMBER_WAS_KILLED".data, "CRITICAL".data,
            strOr actor (strOr victim "Environment".data))
    else none

/-- Branch 33: your tame killed by an enemy player/tame. -/
def ruleDinoKilledByPlayer (m : List Char) : Option Trip :=
  (RE.reMatch rxYourDinoKilledByPlayer m).map (fun st =>
    ("TAME_DIED".data, "CRITICAL".data,
     strOr (cleanActor (gp st 4))
       (strOr (cleanEntity (gp st 1)) "Environment".data)))

/-- Branch 34: your tame killed by a wild creature. -/
def ruleDinoKilledByWild (m : List Char) : Option Trip :=
  (RE.reMatch rxYourDinoKilledByWild m).map (fun st =>
    let wild := cleanEntity (gp st 4)
    let victimName := cleanEntity (gp st 1)
    ("TAME_DIED".data, "CRITICAL".data,
     if wild ≠ [] then wild else strOr victimName "Environment".data))

/-- Branch 35: your tame killed without an attacker. -/
def ruleDinoKilledEnv (m : List Char) : Option Trip :=
  (RE.reMatch rxYourDinoKilledEnv m).map (fun st =>
    ("TAME_DIED".data, "WARNING".data,
     strOr (cleanEntity (gp st 1)) "Environment".data))

/-- Branch 36: your tribe killed something. -/
def ruleYourTribeKilled (m : List Char) : Option Trip :=
  (RE.reMatch rxYourTribeKilled m).map (fun st =>
    let victim := cleanEntity (gp st 1)
    let cat := if isProbablyPlayer victim then "TRIBE_KILLED_PLAYER".data
               else "TRIBE_KILLED_CREATURE".data
    (cat, "CRITICAL".data, "Your Tribe".data))

/-- Branch 37: killed with an explicit killer. -/
def ruleWasKilledBy (m : List Char) : Option Trip :=
  (RE.reMatch rxWasKilledBy m).map (fun st =>
    ("TAME_DIED".data, "CRITICAL".data,
     strOr (cleanActor (gp st 2))
       (strOr (cleanEntity (gp st 1)) "Environment".data)))

/-- Branch 38: unattributed kill (the source searches a caret-anchored
pattern, equivalent to an anchored match): cryopod death, merged
starvation context, or environmental death. -/
def ruleWasKilled (m : List Char) : Option Trip :=
  if RE.tests rxWasKilled m then
    if RE.searches rxCryopod m then
      some ("CRYOPOD_DEATH".data, "WARNING".data, "Environment".data)
    else
      let victim :=
        match RE.reMatch rxWasKilled m with
        | some vm => cleanEntity (gp vm 1)
        | none => []
      if RE.searches rxStarvedWord m then
        some ("TAME_STARVED".data, "WARNING".data,
              strOr victim "Environment".data)
      else
        some ("TAME_DIED".data, "WARNING".data, strOr victim "Environment".data)
  else none

/-- The ordered rule table of classify_message; first match wins. -/
def classifyRules (cfg : ClassifyCfg) : List (List Char → Option Trip) :=
  [ ruleAutoDecay, ruleAntimesh, ruleTekTeleporter, ruleOrp,
    ruleCryopodReleased, ruleBirthHatch, ruleTamedOfficial,
    ruleClaimedOfficial, ruleStarved, ruleFroze, ruleClaimed, ruleUnclaimed,
    ruleTamed, ruleUploaded, ruleDownloaded, ruleTransferred, ruleJoinLeft,
    ruleKicked, rulePromotedDemoted, ruleTribeRenamed, ruleAddedToTribe,
    ruleLeftTribe, ruleRemovedFromTribe, rulePromotedAdmin, ruleOwnerChanged,
    ruleSetRankGroup, ruleYourStructDemolished, ruleDemolished,
    ruleEnemyDestroyed, ruleDestroyed cfg, ruleTribememberKilledBy,
    rulePlayerKilledByPlayer, ruleDinoKilledByPlayer, ruleDinoKilledByWild,
    ruleDinoKilledEnv, ruleYourTribeKilled, ruleWasKilledBy, ruleWasKilled ]

/-- First rule that fires. -/
def firstSome (rules : List (List Char → Option Trip)) (m : List Char) :
    Option Trip :=
  match rules with
  | [] => none
  | r :: rs =>
    match r m with
    | some t => some t
    | none => firstSome rs m

/-- classify.py classify_message: normalize spacing, try the rules in
their source order, and fall back to (UNKNOWN, INFO, Environment). -/
def classifyMessage (cfg : ClassifyCfg) (msg : List Char) : Trip :=
  let m := normSpaces msg
  (firstSome (classifyRules cfg) m).getD
    ("UNKNOWN".data, "INFO".data, "Environment".data)

/-! ## Hashing and event assembly (stage_api/db.py and classify_event)

The claims under verification never inspect digest values, only how the
pre-image is assembled and when a hash is computed at all, so the
cryptographic digest steps (hashlib.sha1 / hashlib.sha256) are modelled
as the identity on the pre-image string; every other step of the hash
construction is embedded from the source. -/

/-- Python str.upper() (ASCII). -/
def pyUpper (s : List Char) : List Char := s.map Char.toUpper

/-- Decimal rendering of an integer (Python str(int(...))). -/
def intToStr (i : Int) : List Char :=
  if i < 0 then '-' :: Nat.toDigits 10 i.natAbs else Nat.toDigits 10 i.natAbs

/-- Python " ".join(s.split()): collapse whitespace runs and strip. -/
def splitJoin (s : List Char) : List Char := pyStrip (collapseWS s)

/-- db.py compute_event_hash: the pipe-joined, normalized v1 pre-image
(SHA-1 digest abstracted as the pre-image itself). -/
def computeEventHash (server tribe : List Char) (arkDay : Int)
    (arkTime category message : List Char) : List Char :=
  pyLower (pyStrip server) ++ '|' ::
  (pyLower (pyStrip tribe) ++ '|' ::
  (intToStr arkDay ++ '|' ::
  (pyStrip arkTime ++ '|' ::
  (pyUpper (pyStrip category) ++ '|' ::
  pyLower (pyStrip (splitJoin message))))))

/-- Modelled from the spec: the Repair/Normalizer's deterministic
"aggressive" string cleanup used by v2 hashing (section 4.3 of the
spec; the function normalize_event_text that classify.py imports from
db is not present under src/).  Modelled at the granularity the claims
need as lower-casing plus whitespace collapsing. -/
def normalizeEventText (s : List Char) : List Char :=
  pyLower (splitJoin s)

/-- The v2-dedup configuration recognized by the spec (section 6):
an enable flag and the configured set of high-signal categories. -/
structure DedupCfg where
  v2Enabled : Bool
  highSignalCategories : List (List Char)

/-- Modelled from the spec: compute_event_hash_v2 (imported by
classify.py from db but not present under src/).  Per spec section 4.8
it is applied only to the configured high-signal categories, passing
the message through the aggressive normalizer and hashing
(server, tribe, day, time, category, actor, normalized message); the
SHA-256 digest is abstracted as the joined pre-image.  Events outside
the configured set get no v2 hash. -/
def computeEventHashV2 (cfg : DedupCfg) (server tribe : List Char)
    (arkDay : Int) (arkTime category actor message : List Char) :
    Option (List Char) :=
  if cfg.v2Enabled ∧ category ∈ cfg.highSignalCategories then
    some
      (pyLower (pyStrip server) ++ '|' ::
       (pyLower (pyStrip tribe) ++ '|' ::
       (intToStr arkDay ++ '|' ::
       (pyStrip arkTime ++ '|' ::
       (pyUpper (pyStrip category) ++ '|' ::
       (pyLower (pyStrip actor) ++ '|' ::
       normalizeEventText message))))))
  else none

/-- Lower-case alphanumeric tokens of a text. -/
def lsTokens (s : List Char) : List (List Char) :=
  ((pyLower s).splitOnP (fun c => ¬ c.isAlphanum)).filter (fun t => t ≠ [])

/-- Modelled from the spec: the per-token 64-bit digest feeding the
locality-sensitive fingerprint (compute_fingerprint64 is imported by
classify.py from db but not present under src/; the spec fixes no
concrete token hash, so a deterministic 64-bit polynomial hash stands
in). -/
def tokenHash64 (t : List Char) : Nat :=
  t.foldl (fun a c => (a * 131 + c.toNat) % (2 ^ 64)) 7

/-- Modelled from the spec: compute_fingerprint64 (spec section 4.8):
hash each token, accumulate a signed per-bit vote, set the output bit
where the vote is positive, and reinterpret the packed 64-bit value as
a signed integer. -/
def computeFingerprint64 (s : List Char) : Int :=
  let toks := lsTokens s
  let bit := fun (i : Nat) =>
    let vote : Int := toks.foldl
      (fun acc t => acc + (if tokenHash64 t / 2 ^ i % 2 = 1 then 1 else -1)) 0
    if 0 < vote then 2 ^ i else 0
  let packed : Nat := (List.range 64).foldl (fun acc i => acc + bit i) 0
  if packed < 2 ^ 63 then (packed : Int) else (packed : Int) - 2 ^ 64

/-- tribelog/models.py ParsedEvent. -/
structure ParsedEvent where
  server : List Char
  tribe : List Char
  arkDay : Int
  arkTime : List Char
  severity : List Char
  category : List Char
  actor : List Char
  message : List Char
  rawLine : List Char
  eventHash : List Char
  eventHashV2 : Option (List Char)
  normalizedText : Option (List Char)
  fingerprint : Option Int
  deriving Repr, DecidableEq

/-- classify.py classify_event: classify the message, clean the actor,
compute the v1 hash, the (spec-modelled) v2 hash, the normalized text
and the fingerprint, and assemble the immutable event record. -/
def classifyEvent (cfg : ClassifyCfg) (dcfg : DedupCfg)
    (server tribe : List Char) (arkDay : Int)
    (arkTime message rawLine : List Char) : ParsedEvent :=
  let trip := classifyMessage cfg message
  let category := trip.1
  let severity := trip.2.1
  let actor := strOr (cleanActor trip.2.2) "Environment".data
  let h := computeEventHash server tribe arkDay arkTime category message
  let h2 := computeEventHashV2 dcfg server tribe arkDay arkTime category
              actor message
  let normText := normalizeEventText
    (category ++ ' ' :: (actor ++ ' ' :: message))
  let fp := computeFingerprint64 normText
  { server := server
    tribe := tribe
    arkDay := arkDay
    arkTime := arkTime
    severity := severity
    category := category
    actor := actor
    message := normSpaces message
    rawLine := normSpaces rawLine
    eventHash := h
    eventHashV2 := h2
    normalizedText := some normText
    fingerprint := some fp }

/-! ## OCR selection and merge controller (stage_api/ocr/router.py)

Images and OCR engines are black boxes here (spec section 1 declares the
recognition engine a non-goal): an extraction oracle maps a
(variant name, engine name) pair to the recognized lines _run_engine
would return after repair, with none standing for an attempt that threw.
Confidences are modelled as rationals.  The controller logic downstream
of the variant generation call - scoring, best-candidate selection,
fast-mode capping and early exit, and the color-isolation merge passes -
is embedded from the source.  For the claims about which pairs the
search visits, the loop state additionally records the list of attempted
(variant, engine) pairs; this trace is instrumentation only and mirrors
exactly the _run_engine invocations of the source loop. -/

/-- One recognized line (ocr/schema.py Line) after repair. -/
structure RLine where
  text : List Char
  conf : ℚ
  bbox : Int × Int × Int × Int
  deriving Repr, DecidableEq

/-- The extraction oracle: lines per (variant, engine) attempt, none for
an attempt that raised inside _run_engine. -/
def Oracle := List Char → List Char → Option (List RLine)

/-- router.py _RX_DAY_HEADER: the scoring/merge header pattern.  Note
the day number needs 2-6 digits and the day/time separator is exactly
one of comma, semicolon or space (with optional surrounding space). -/
def rxDayHeader : RE :=
  reCat [spS, reDayWord, reDaySep, RE.cls isDigitPy 2 6, spS,
         reOne (oneOf ",; "), spS, RE.cls isDigitPy 1 2, reTimeSep,
         RE.cls isDigitPy 1 2,
         RE.opt (reCat [spS, reOne (oneOf ":."), spS, RE.cls isDigitPy 2 3])]

/-- router.py _RX_CRITICAL, used with search. -/
def rxCritical : RE :=
  RE.alt (reCat [RE.wb, litCI "was killed", RE.wb])
    (RE.alt (reCat [RE.wb, litCI "killed", RE.wb])
      (RE.alt (reCat [RE.wb, litCI "destroyed", RE.wb])
        (RE.alt (reCat [RE.wb, litCI "demolished", RE.wb])
          (RE.alt (reCat [RE.wb, litCI "auto", RE.opt (litCS "-"),
                          litCI "decay", RE.wb])
            (reCat [RE.wb, litCI "removed from the tribe", RE.wb])))))

/-- router.py _RX_DAYTIME (1 = day digits, 2 = the H:MM:SS time). -/
def rxDaytime : RE :=
  reCat [spS, reDayWord, reDaySep, RE.grp 1 (RE.cls isDigitPy 1 6), spS,
         rePlus (oneOf ",/; "),
         RE.grp 2 (reCat [RE.cls isDigitPy 1 2, litCS ":",
                          RE.cls isDigitPy 2 2, litCS ":",
                          RE.cls isDigitPy 2 3])]

/-- router.py _joined_text. -/
def joinedText (lines : List RLine) : List Char :=
  match (lines.filterMap (fun ln =>
      if pyStrip ln.text ≠ [] then some (pyStrip ln.text) else none)) with
  | [] => []
  | t :: ts => ts.foldl (fun acc u => acc ++ '\n' :: u) t

/-- router.py _header_hits: lines whose non-blank text matches
_RX_DAY_HEADER. -/
def headerHits (lines : List RLine) : Nat :=
  lines.countP (fun ln =>
    pyStrip ln.text ≠ [] && RE.tests rxDayHeader (pyStrip ln.text))

/-- router.py _is_critical_text. -/
def isCriticalText (s : List Char) : Bool := RE.searches rxCritical s

/-- router.py _critical_hits. -/
def criticalHits (lines : List RLine) : Nat :=
  lines.countP (fun ln =>
    pyStrip ln.text ≠ [] && RE.searches rxCritical (pyStrip ln.text))

/-- repair/normalize.py mean_conf. -/
def meanConf (lines : List RLine) : ℚ :=
  (lines.foldl (fun a ln => a + ln.conf) 0) / (max 1 lines.length : Nat)

/-- router.py _norm_line_key: lower, collapse whitespace, then keep only
lower-case letters, digits and colons. -/
def normLineKey (s : List Char) : List Char :=
  (collapseWS (pyLower (pyStrip s))).filter
    (fun c => ('a' ≤ c ∧ c ≤ 'z') ∨ c.isDigit ∨ c = ':')

/-- router.py _daytime_key. -/
def daytimeKey (s : List Char) : Option (List Char × List Char) :=
  match RE.reMatch rxDaytime s with
  | none => none
  | some st => some (gp st 1, gp st 2)

/-- router.py _fuzzy_event_key: on a day/time match, fingerprint the
line as day, time and the letters-only message; otherwise fall back
to the normalized literal key. -/
def fuzzyEventKey (s : List Char) : List Char :=
  match daytimeKey s with
  | none => normLineKey s
  | some (day, tm) =>
    let msg := subFirst rxDaytime (pyLower s)
    let msg := msg.filter (fun c => 'a' ≤ c ∧ c ≤ 'z')
    day ++ '|' :: (tm ++ '|' :: msg)

/-- The configuration of extract_text (engine hint argument plus the
environment options the source reads). -/
structure RouterCfg where
  engineHint : List Char
  fast : Bool
  tryMax : Nat
  acceptHits : Int
  acceptConf : ℚ
  lowcEnabled : Bool
  mergeRedmag : Bool
  mergeRbMinusG : Bool
  redmagMinConf : ℚ
  rbmgMinConf : ℚ

/-- The engine list chosen from the hint (always a single engine). -/
def enginesOf (hint : List Char) : List (List Char) :=
  let h := pyLower (pyStrip (strOr hint "auto".data))
  if h = "ppocr".data ∨ h = "rapidocr".data ∨ h = "paddle".data then
    ["ppocr".data]
  else ["tesseract".data]

/-- The ordered names produced by _variant_images (the low-contrast
variants appear only when the low-contrast factor is within range). -/
def variantNamesBase (cfg : RouterCfg) : List (List Char) :=
  ["raw".data]
    ++ (if cfg.lowcEnabled then ["lowc_raw".data, "lowc_maxrgb".data] else [])
    ++ ["redmag_mask".data]
    ++ (if cfg.lowcEnabled then ["lowc_redmag".data] else [])
    ++ ["max_rgb".data, "rb_minus_g".data, "clahe".data, "enhanced".data,
        "hdr_norm".data, "ark_ui".data, "binary".data, "inverted".data]

/-- The preference list of extract_text. -/
def preferredVariants : List (List Char) :=
  ["raw".data, "redmag_mask".data, "rb_minus_g".data, "max_rgb".data,
   "clahe".data, "enhanced".data, "hdr_norm".data, "ark_ui".data,
   "binary".data, "inverted".data]

/-- Sort key: index in the preference list, 999 for unlisted names. -/
def prefIndex (v : List Char) : Nat :=
  match preferredVariants.indexOf? v with
  | some i => i
  | none => 999

/-- Stable insertion sort: x is inserted after every element the keep
relation lets stand before it (models Python's stable list.sort). -/
def stableInsert (keep : α → α → Bool) (x : α) : List α → List α
  | [] => [x]
  | y :: t => if keep y x then y :: stableInsert keep x t else x :: y :: t

/-- Stable sort from repeated insertion. -/
def stableSortBy (keep : α → α → Bool) (l : List α) : List α :=
  l.foldl (fun acc x => stableInsert keep x acc) []

/-- Python three-tuple comparison key greater-than on
(header_hits, critical_hits, mean_conf). -/
def keyGt (a b : Int × Int × ℚ) : Bool :=
  b.1 < a.1 ∨ (a.1 = b.1 ∧ (b.2.1 < a.2.1 ∨ (a.2.1 = b.2.1 ∧ b.2.2 < a.2.2)))

/-- One scored candidate row (for the diagnostics list). -/
structure Cand where
  engine : List Char
  variant : List Char
  headerHits : Nat
  criticalHits : Nat
  meanConf : ℚ
  lineCount : Nat
  deriving Repr, DecidableEq

/-- The best selection under construction. -/
structure BestSel where
  engine : List Char
  variant : List Char
  conf : ℚ
  lines : List RLine
  deriving Repr, DecidableEq

/-- The search loop state: best selection and its key, the candidate
rows, and the instrumentation trace of attempted (variant, engine)
pairs. -/
structure LoopSt where
  best : Option BestSel
  bestKey : Int × Int × ℚ
  candidates : List Cand
  attempts : List (List Char × List Char)
  deriving Repr, DecidableEq

/-- The fast-mode per-attempt early-accept test of the inner loop:
hits >= accept_hits or crit >= 1 or mean conf >= accept_conf. -/
def attemptAccept (cfg : RouterCfg) (hits crit : Nat) (mc : ℚ) : Bool :=
  cfg.fast && (cfg.acceptHits ≤ (hits : Int) || 1 ≤ crit || cfg.acceptConf ≤ mc)

/-- The fast-mode outer-loop exit test: best exists and the best key's
header hits or mean confidence reach the acceptance thresholds (the
critical-hit count takes no part here). -/
def variantExit (cfg : RouterCfg) (st : LoopSt) : Bool :=
  cfg.fast && st.best.isSome &&
    (cfg.acceptHits ≤ st.bestKey.1 || cfg.acceptConf ≤ st.bestKey.2.2)

/-- The record/score/update step for one attempt that produced lines:
append the candidate row and promote the attempt to best when its key
is strictly greater. -/
def attemptState (st : LoopSt) (vname eng : List Char)
    (lines : List RLine) : LoopSt :=
  let hits := headerHits lines
  let crit := criticalHits lines
  let mc := meanConf lines
  let st2 := { st with candidates := st.candidates ++
    [{ engine := eng, variant := vname, headerHits := hits,
       criticalHits := crit, meanConf := mc, lineCount := lines.length }] }
  let key : Int × Int × ℚ := ((hits : Int), (crit : Int), mc)
  if keyGt key st2.bestKey then
    { st2 with bestKey := key,
               best := some { engine := eng, variant := vname,
                              conf := mc, lines := lines } }
  else st2

/-- The engine loop body of extract_text for one variant: run each
engine, skip raising or line-less attempts, record the candidate,
update the best selection on a strictly greater key, and in fast mode
break once the attempt meets the acceptance test. -/
def engineLoop (oracle : Oracle) (cfg : RouterCfg) (vname : List Char) :
    List (List Char) → LoopSt → LoopSt
  | [], st => st
  | eng :: rest, st =>
    let st1 := { st with attempts := st.attempts ++ [(vname, eng)] }
    match oracle vname eng with
    | none => engineLoop oracle cfg vname rest st1
    | some [] => engineLoop oracle cfg vname rest st1
    | some lines =>
      let st2 := attemptState st1 vname eng lines
      if attemptAccept cfg (headerHits lines) (criticalHits lines)
          (meanConf lines) then st2
      else engineLoop oracle cfg vname rest st2

/-- The variant loop of extract_text with its fast-mode early exit. -/
def variantLoop (oracle : Oracle) (cfg : RouterCfg)
    (engines : List (List Char)) : List (List Char) → LoopSt → LoopSt
  | [], st => st
  | v :: rest, st =>
    let st2 := engineLoop oracle cfg v engines st
    if variantExit cfg st2 then st2
    else variantLoop oracle cfg engines rest st2

/-- The result dictionary of extract_text. -/
structure OcrOut where
  engine : List Char
  variant : List Char
  conf : ℚ
  lines : List RLine
  linesText : List (List Char)
  text : List Char
  candidates : List Cand
  mergedVariants : List (List Char)
  attempts : List (List Char × List Char)
  deriving Repr, DecidableEq

/-- The explicit sentinel returned when no attempt yields lines. -/
def sentinelOut (attempts : List (List Char × List Char)) : OcrOut :=
  { engine := "none".data, variant := "none".data, conf := 0, lines := [],
    linesText := [], text := [], candidates := [], mergedVariants := [],
    attempts := attempts }

/-- router.py _merge_from: pull additional lines of one color-isolation
variant into the best selection.  Returns the new line list and how
many lines were appended.  A line is appended only when its confidence
reaches min_conf, its stripped text is non-blank and matches
_RX_DAY_HEADER, it passes the critical-keyword test when required, and
its fuzzy event key is new. -/
def mergeFrom (oracle : Oracle) (bestVariant bestEngine : List Char)
    (bestLines : List RLine) (names : List (List Char)) (vname : List Char)
    (requireCritical : Bool) (minConf : ℚ) : List RLine × Nat :=
  if bestVariant = vname then (bestLines, 0)
  else if ¬ names.contains vname then (bestLines, 0)
  else
    match oracle vname bestEngine with
    | none => (bestLines, 0)
    | some [] => (bestLines, 0)
    | some otherLines =>
      let seen0 := bestLines.filterMap (fun d =>
        if d.text ≠ [] then some (fuzzyEventKey d.text) else none)
      let final := otherLines.foldl
        (fun (acc : List RLine × List (List Char) × Nat) ln =>
          let c := ln.conf
          if c < minConf then acc
          else
            let s := pyStrip ln.text
            if s = [] then acc
            else if ¬ RE.tests rxDayHeader s then acc
            else if requireCritical ∧ ¬ isCriticalText s then acc
            else if acc.2.1.contains (fuzzyEventKey s) then acc
            else (acc.1 ++ [{ text := s, conf := c, bbox := ln.bbox }],
                  fuzzyEventKey s :: acc.2.1, acc.2.2 + 1))
        (bestLines, seen0, 0)
      (final.1, final.2.2)

/-- The scoring key of a candidate row. -/
def candKey (c : Cand) : Int × Int × ℚ :=
  ((c.headerHits : Int), (c.criticalHits : Int), c.meanConf)

/-- Join strings with newlines. -/
def joinNL (l : List (List Char)) : List Char :=
  match l with
  | [] => []
  | t :: ts => ts.foldl (fun acc u => acc ++ '\n' :: u) t

/-- The lines_text field of the freshly selected best candidate:
texts that are non-empty and non-blank. -/
def linesTextOf (lines : List RLine) : List (List Char) :=
  lines.filterMap (fun d =>
    if d.text ≠ [] ∧ pyStrip d.text ≠ [] then some d.text else none)

/-- Vertical-then-horizontal ordering on line boxes (the post-merge
re-sort key (bbox[1], bbox[0])); y stays before a newly inserted x when
its key is less or equal. -/
def bboxKeep (y x : RLine) : Bool :=
  y.bbox.2.1 < x.bbox.2.1 ∨ (y.bbox.2.1 = x.bbox.2.1 ∧ y.bbox.1 ≤ x.bbox.1)

/-- router.py extract_text, downstream of the variant-generation call:
choose the engine list from the hint, order the variant names by the
preference list, cap them in fast mode, run the scored search loop,
return the sentinel when nothing produced lines, otherwise attach the
sorted diagnostics and run the two color-isolation merge passes. -/
def initLoopSt : LoopSt :=
  { best := none, bestKey := (-1, -1, -1), candidates := [], attempts := [] }

/-- The variant names extract_text iterates: preference-sorted and, in
fast mode, capped at max(1, min(count, try_max)). -/
def variantsOf (cfg : RouterCfg) : List (List Char) :=
  let sortedNames :=
    stableSortBy (fun a b => prefIndex a ≤ prefIndex b) (variantNamesBase cfg)
  if cfg.fast then sortedNames.take (max 1 (min sortedNames.length cfg.tryMax))
  else sortedNames

def extractTextCore (oracle : Oracle) (cfg : RouterCfg) : OcrOut :=
  let engines := enginesOf cfg.engineHint
  let allNames := variantNamesBase cfg
  let st := variantLoop oracle cfg engines (variantsOf cfg) initLoopSt
  match st.best with
  | none => sentinelOut st.attempts
  | some best =>
    let sortedCands :=
      stableSortBy (fun a b => ¬ keyGt (candKey b) (candKey a)) st.candidates
    let step1 :=
      if cfg.mergeRedmag then
        mergeFrom oracle best.variant best.engine best.lines allNames
          "redmag_mask".data false cfg.redmagMinConf
      else (best.lines, 0)
    let merged1 : List (List Char) :=
      if cfg.mergeRedmag ∧ step1.2 ≠ 0 then ["redmag_mask".data] else []
    let step2 :=
      if cfg.mergeRbMinusG then
        mergeFrom oracle best.variant best.engine step1.1 allNames
          "rb_minus_g".data false cfg.rbmgMinConf
      else (step1.1, 0)
    let merged := merged1 ++
      (if cfg.mergeRbMinusG ∧ step2.2 ≠ 0 then ["rb_minus_g".data] else [])
    if merged = [] then
      { engine := best.engine, variant := best.variant, conf := best.conf,
        lines := best.lines, linesText := linesTextOf best.lines,
        text := joinedText best.lines, candidates := sortedCands,
        mergedVariants := [], attempts := st.attempts }
    else
      let linesSorted := stableSortBy bboxKeep step2.1
      { engine := best.engine, variant := best.variant, conf := best.conf,
        lines := linesSorted, linesText := linesSorted.map (·.text),
        text := joinNL (linesSorted.map (·.text)), candidates := sortedCands,
        mergedVariants := merged, attempts := st.attempts }

/-- Outcome of a Python call: a value, or an uncaught TypeError. -/
inductive PyResult (α : Type) where
  | ok (a : α)
  | typeError
  deriving Repr, DecidableEq

/-- The formal parameters of _variant_images (router.py line 79). -/
def variantImagesParams : List (List Char) := ["pil_img".data]

/-- The keyword arguments extract_text passes to _variant_images
(router.py line 317: _variant_images(pil, max_w=max_w)). -/
def variantImagesCallKwargs : List (List Char) := ["max_w".data]

/-- router.py extract_text at the Python call level: binding the
keyword arguments of the _variant_images call against the callee's
parameter list raises TypeError on an unexpected keyword, before any
OCR attempt; otherwise the embedded core runs. -/
def extract_text (oracle : Oracle) (cfg : RouterCfg) : PyResult OcrOut :=
  if variantImagesCallKwargs.all (fun k => variantImagesParams.contains k) then
    PyResult.ok (extractTextCore oracle cfg)
  else PyResult.typeError

/-! ## Concrete instances used by the claim theorems and witnesses -/

/-- A default classifier configuration (tiered severity off). -/
def cfgC1 : ClassifyCfg :=
  { tieredStructureSeverity := false, criticalStructKeywords := [] }

/-- Classifier configuration for the v2-hash witness. -/
def cfgC2 : ClassifyCfg :=
  { tieredStructureSeverity := false, criticalStructKeywords := [] }

/-- A v2-dedup configuration whose high-signal set holds only TAME_DIED. -/
def dcfgC2 : DedupCfg :=
  { v2Enabled := true, highSignalCategories := ["TAME_DIED".data] }

/-- Thorough-mode router configuration for the selection example. -/
def cfgC6 : RouterCfg :=
  { engineHint := "auto".data, fast := false, tryMax := 2, acceptHits := 1,
    acceptConf := 45/100, lowcEnabled := false, mergeRedmag := true,
    mergeRbMinusG := true, redmagMinConf := 30/100, rbmgMinConf := 30/100 }

/-- Selection example: the raw variant yields one header line, the
red/magenta mask two, with equal confidences. -/
def oracleC6 : Oracle := fun v _ =>
  if v = "raw".data then
    some [{ text := "Day 10, 01:02:03: Rex starved to death!".data,
            conf := 1/2, bbox := (0, 0, 10, 10) }]
  else if v = "redmag_mask".data then
    some [{ text := "Day 10, 01:02:03: Rex starved to death!".data,
            conf := 1/2, bbox := (0, 0, 10, 10) },
          { text := "Day 11, 02:03:04: B landed".data,
            conf := 1/2, bbox := (0, 20, 10, 30) }]
  else some []

/-- Router configuration for the merge example (thorough mode, both
merge passes on). -/
def cfgC7 : RouterCfg :=
  { engineHint := "auto".data, fast := false, tryMax := 2, acceptHits := 1,
    acceptConf := 45/100, lowcEnabled := false, mergeRedmag := true,
    mergeRbMinusG := true, redmagMinConf := 30/100, rbmgMinConf := 30/100 }

/-- The non-critical header line only the rb_minus_g variant sees. -/
def lineC7 : RLine :=
  { text := "Day 11, 05:06:07: Bob joined the tribe!".data, conf := 9/10,
    bbox := (0, 20, 10, 30) }

/-- Merge example: raw yields one critical line; rb_minus_g yields a
non-critical membership line. -/
def oracleC7 : Oracle := fun v _ =>
  if v = "raw".data then
    some [{ text := "Day 10, 01:02:03: Rex starved to death!".data,
            conf := 9/10, bbox := (0, 0, 10, 10) }]
  else if v = "rb_minus_g".data then some [lineC7]
  else some []

/-- Fast-mode router configuration of the early-exit counterexample
(the defaults of the source: two variants, one header hit or 0.45
confidence accepted). -/
def cfgC8 : RouterCfg :=
  { engineHint := "auto".data, fast := true, tryMax := 2, acceptHits := 1,
    acceptConf := 45/100, lowcEnabled := false, mergeRedmag := false,
    mergeRbMinusG := false, redmagMinConf := 30/100, rbmgMinConf := 30/100 }

/-- The critical-keyword line of the early-exit counterexample. -/
def lineC8 : RLine :=
  { text := "X was killed!".data, conf := 1/10, bbox := (0, 0, 10, 10) }

/-- Early-exit counterexample: the first variant sees one critical line
with no header and low confidence; the second variant sees another
scoreable line. -/
def oracleC8 : Oracle := fun v _ =>
  if v = "raw".data then some [lineC8]
  else if v = "redmag_mask".data then
    some [{ text := "other".data, conf := 1/10, bbox := (0, 0, 10, 10) }]
  else some []

/-- The spec's wording of the starved/killed pairing: an event whose
message is an unattributed "was killed" line is dropped when some event
of the batch carries a "starved to death" message with the same day,
time and canonicalized creature name. -/
def starvedPairDropped (events : List HEvent) (e : HEvent) : Bool :=
  match extractVictimFromKilled e.message with
  | some victim =>
      victim ≠ [] &&
      events.any (fun e2 =>
        extractVictimFromStarved e2.message = some victim &&
        e2.arkDay = e.arkDay && e2.arkTime = e.arkTime)
  | none => false

/-- A single-digit-day raw line: exactly the shape the router's
_RX_DAY_HEADER rejects while the parser accepts it. -/
def lineC10 : List Char := "Day 5, 10:00:00: Your Rex was killed!".data

/-- The head of the backtracking state list: the alternative Python
matcher commits to this state first. -/
def FirstIs (re : RE) (st st' : MSt) : Prop :=
  ∃ t, RE.allM re st = st' :: t

/-- Decimal digits of a natural number, most significant first (Python
str(n) for n greater than 0); the fuel argument is instantiated with n
itself. -/
def natDigitsAux : Nat → Nat → List Char
  | 0, _ => []
  | fuel + 1, n =>
    if n = 0 then [] else natDigitsAux fuel (n / 10) ++ [digitChar (n % 10)]

/-- Decimal rendering of a natural number (Python str(n)). -/
def natDigits (n : Nat) : List Char :=
  if n = 0 then ['0'] else natDigitsAux n n

/-- Modelled from the spec: re-rendering of a parsed (day, time, message)
triple back into the canonical "Day N, HH:MM:SS: message" line; the
repository has no reconstruction function, so this follows the wording
of the idempotence property. -/
def reconstructLine (day : Int) (time msg : List Char) : List Char :=
  "Day ".data ++ natDigits day.toNat ++ ", ".data ++ time ++
    ": ".data ++ msg

/-! ## Support lemmas -/

theorem enginesOf_length (hint : List Char) : (enginesOf hint).length = 1 := by
  unfold enginesOf
  dsimp only
  split <;> rfl

theorem attemptState_attempts (st : LoopSt) (v e : List Char)
    (lines : List RLine) :
    (attemptState st v e lines).attempts = st.attempts := by
  unfold attemptState
  dsimp only
  split <;> rfl

theorem engineLoop_attempts_le (oracle : Oracle) (cfg : RouterCfg)
    (v : List Char) :
    ∀ (es : List (List Char)) (st : LoopSt),
      (engineLoop oracle cfg v es st).attempts.length ≤
        st.attempts.length + es.length := by
  intro es
  induction es with
  | nil => intro st; simp [engineLoop]
  | cons e rest ih =>
    intro st
    cases h : oracle v e with
    | none =>
      simp only [engineLoop, h]
      refine le_trans (ih _) ?_
      simp
      omega
    | some lines =>
      cases lines with
      | nil =>
        simp only [engineLoop, h]
        refine le_trans (ih _) ?_
        simp
        omega
      | cons l ls =>
        simp only [engineLoop, h]
        have ha : (attemptState { st with attempts := st.attempts ++ [(v, e)] }
            v e (l :: ls)).attempts.length = st.attempts.length + 1 := by
          rw [attemptState_attempts]
          simp
        split
        · rw [ha]; simp only [List.length_cons]; omega
        · refine le_trans (ih _) ?_
          rw [ha]; simp only [List.length_cons]; omega

theorem variantLoop_attempts_le (oracle : Oracle) (cfg : RouterCfg)
    (engines : List (List Char)) :
    ∀ (vs : List (List Char)) (st : LoopSt),
      (variantLoop oracle cfg engines vs st).attempts.length ≤
        st.attempts.length + vs.length * engines.length := by
  intro vs
  induction vs with
  | nil => intro st; simp [variantLoop]
  | cons v rest ih =>
    intro st
    simp only [variantLoop, List.length_cons]
    have hbase := engineLoop_attempts_le oracle cfg v engines st
    have hmul : engines.length ≤ (rest.length + 1) * engines.length := by
      have h1 : 1 * engines.length ≤ (rest.length + 1) * engines.length :=
        Nat.mul_le_mul_right _ (by omega)
      simpa using h1
    have hsum : (rest.length + 1) * engines.length =
        rest.length * engines.length + engines.length := by ring
    split
    · omega
    · refine le_trans (ih _) ?_
      omega

theorem engineLoop_no_lines (oracle : Oracle) (cfg : RouterCfg)
    (v : List Char)
    (h : ∀ v2 e, oracle v2 e = none ∨ oracle v2 e = some []) :
    ∀ (es : List (List Char)) (st : LoopSt),
      (engineLoop oracle cfg v es st).best = st.best ∧
      (engineLoop oracle cfg v es st).bestKey = st.bestKey ∧
      (engineLoop oracle cfg v es st).candidates = st.candidates := by
  intro es
  induction es with
  | nil => intro st; exact ⟨rfl, rfl, rfl⟩
  | cons e rest ih =>
    intro st
    unfold engineLoop
    rcases h v e with h2 | h2 <;> simp only [h2] <;> exact ih _

theorem variantLoop_no_lines (oracle : Oracle) (cfg : RouterCfg)
    (engines : List (List Char))
    (h : ∀ v e, oracle v e = none ∨ oracle v e = some []) :
    ∀ (vs : List (List Char)) (st : LoopSt),
      (variantLoop oracle cfg engines vs st).best = st.best := by
  intro vs
  induction vs with
  | nil => intro st; rfl
  | cons v rest ih =>
    intro st
    obtain ⟨hb, _, _⟩ := engineLoop_no_lines oracle cfg v h engines st
    simp only [variantLoop]
    split
    · exact hb
    · exact (ih _).trans hb

/-! ## Claim theorems -/

/-- C2: event_hash_v2 is computed only for events whose category lies
in the configured set of high-signal categories; every classified
event outside that set carries eventHashV2 = none. -/
theorem c2_event_hash_v2_selective (cfg : ClassifyCfg) (dcfg : DedupCfg)
    (server tribe : List Char) (arkDay : Int)
    (arkTime message rawLine : List Char) :
    ((classifyEvent cfg dcfg server tribe arkDay arkTime message
        rawLine).eventHashV2.isSome = true →
      (classifyEvent cfg dcfg server tribe arkDay arkTime message
        rawLine).category ∈ dcfg.highSignalCategories) ∧
    ((classifyEvent cfg dcfg server tribe arkDay arkTime message
        rawLine).category ∉ dcfg.highSignalCategories →
      (classifyEvent cfg dcfg server tribe arkDay arkTime message
        rawLine).eventHashV2 = none) := by
  constructor
  · intro h
    by_contra hc
    simp only [classifyEvent, computeEventHashV2] at h hc
    rw [if_neg (by tauto)] at h
    simp at h
  · intro h
    simp only [classifyEvent, computeEventHashV2] at h ⊢
    rw [if_neg (by tauto)]

/-- C2 witness: with the high-signal set holding only TAME_DIED, a
message classified UNKNOWN gets no v2 hash. -/
theorem c2_event_hash_v2_selective_witness :
    ((classifyEvent cfgC2 dcfgC2 "s".data "t".data 1 "01:02:03".data
        "Hello world".data "raw".data).category ∉
      dcfgC2.highSignalCategories) ∧
    (classifyEvent cfgC2 dcfgC2 "s".data "t".data 1 "01:02:03".data
        "Hello world".data "raw".data).eventHashV2 = none :=
  ⟨by decide,
   (c2_event_hash_v2_selective cfgC2 dcfgC2 "s".data "t".data 1
      "01:02:03".data "Hello world".data "raw".data).2 (by decide)⟩

/-- C3 (code bug): extract_text passes the keyword max_w to
_variant_images, which accepts no such parameter, so every call raises
TypeError; and the loop downstream of that call (the embedded core)
does return the "none" sentinel whenever no attempt yields lines, as
the claim describes. -/
theorem c3_total_failure_sentinel :
    (∀ (oracle : Oracle) (cfg : RouterCfg),
      extract_text oracle cfg = PyResult.typeError) ∧
    (∀ (oracle : Oracle) (cfg : RouterCfg),
      (∀ v e, oracle v e = none ∨ oracle v e = some []) →
      (extractTextCore oracle cfg).engine = "none".data ∧
      (extractTextCore oracle cfg).variant = "none".data ∧
      (extractTextCore oracle cfg).conf = 0 ∧
      (extractTextCore oracle cfg).lines = [] ∧
      (extractTextCore oracle cfg).text = []) := by
  constructor
  · intro oracle cfg
    rfl
  · intro oracle cfg h
    have hb := variantLoop_no_lines oracle cfg (enginesOf cfg.engineHint) h
      (variantsOf cfg) initLoopSt
    rw [show initLoopSt.best = none from rfl] at hb
    unfold extractTextCore
    dsimp only
    rw [hb]
    exact ⟨rfl, rfl, rfl, rfl, rfl⟩

/-- C3 witness: with every attempt raising, the embedded core returns
the sentinel. -/
theorem c3_total_failure_sentinel_witness :
    (∀ v e, (fun (_ _ : List Char) =>
        (none : Option (List RLine))) v e = none ∨
      (fun (_ _ : List Char) => (none : Option (List RLine))) v e =
        some []) ∧
    (extractTextCore (fun _ _ => none) cfgC8).engine = "none".data :=
  ⟨fun _ _ => Or.inl rfl,
   ((c3_total_failure_sentinel.2 (fun _ _ => none) cfgC8)
     (fun _ _ => Or.inl rfl)).1⟩

/-- C8 counterexample: in fast mode with the source defaults (accept
after 1 header hit or 0.45 confidence, 2 variants), the first attempt
already has a critical-hit count of 1, yet the search goes on to
attempt the second variant: the loop does not exit early on critical
hits alone (the inner engine loop it breaks holds a single engine). -/
theorem c8_early_exit_counterexample :
    cfgC8.fast = true ∧
    oracleC8 "raw".data "tesseract".data = some [lineC8] ∧
    criticalHits [lineC8] = 1 ∧
    ((criticalHits [lineC8] : Int) < cfgC8.acceptHits ∨
      1 ≤ criticalHits [lineC8]) ∧
    (extractTextCore oracleC8 cfgC8).attempts =
      [("raw".data, "tesseract".data),
       ("redmag_mask".data, "tesseract".data)] := by
  refine ⟨rfl, by decide, by decide, Or.inr (by decide), by decide⟩

/-- C8 as amended: in fast mode the search attempts at most
max(1, configured maximum) variants (one engine each), and once the
engine loop of a variant leaves the best score at or above the
header-hit or mean-confidence acceptance threshold, the remaining
variants are never visited.  An attempt's critical-hit count only ends
that variant's (single-engine) engine loop. -/
theorem c8_fast_cap_and_early_exit (oracle : Oracle) (cfg : RouterCfg)
    (hf : cfg.fast = true) :
    (extractTextCore oracle cfg).attempts.length ≤ max 1 cfg.tryMax ∧
    (∀ (v : List Char) (rest : List (List Char)) (st : LoopSt),
      variantExit cfg
          (engineLoop oracle cfg v (enginesOf cfg.engineHint) st) = true →
      variantLoop oracle cfg (enginesOf cfg.engineHint) (v :: rest) st =
        engineLoop oracle cfg v (enginesOf cfg.engineHint) st) := by
  constructor
  · have hlen : (variantsOf cfg).length ≤ max 1 cfg.tryMax := by
      unfold variantsOf
      dsimp only
      rw [if_pos hf]
      refine le_trans (List.length_take_le _ _) ?_
      rcases Nat.le_total
        ((stableSortBy (fun a b => prefIndex a ≤ prefIndex b)
          (variantNamesBase cfg)).length) cfg.tryMax with h1 | h1
      · rw [min_eq_left h1]
        omega
      · rw [min_eq_right h1]
    have hloop := variantLoop_attempts_le oracle cfg
      (enginesOf cfg.engineHint) (variantsOf cfg) initLoopSt
    rw [enginesOf_length] at hloop
    have hattempts : (extractTextCore oracle cfg).attempts =
        (variantLoop oracle cfg (enginesOf cfg.engineHint)
          (variantsOf cfg) initLoopSt).attempts := by
      unfold extractTextCore
      dsimp only
      split
      · rfl
      · exact (apply_ite OcrOut.attempts _ _ _).trans (ite_self _)
    rw [hattempts]
    have : initLoopSt.attempts.length = 0 := rfl
    omega
  · intro v rest st hexit
    simp only [variantLoop]
    rw [if_pos hexit]

/-- C8 witness: the cap applies to the counterexample configuration. -/
theorem c8_fast_cap_and_early_exit_witness :
    cfgC8.fast = true ∧
    (extractTextCore oracleC8 cfgC8).attempts.length ≤ max 1 cfgC8.tryMax :=
  ⟨rfl, (c8_fast_cap_and_early_exit oracleC8 cfgC8 rfl).1⟩

theorem firstSome_eq_some (rules : List (List Char → Option Trip))
    (m : List Char) (t : Trip) :
    firstSome rules m = some t → ∃ r ∈ rules, r m = some t := by
  induction rules with
  | nil => intro h; simp [firstSome] at h
  | cons r rs ih =>
    intro h
    simp only [firstSome] at h
    cases h2 : r m with
    | some t2 =>
      rw [h2] at h
      exact ⟨r, List.mem_cons_self r rs, h2.trans h⟩
    | none =>
      rw [h2] at h
      obtain ⟨r2, hr2, he⟩ := ih h
      exact ⟨r2, List.mem_cons_of_mem r hr2, he⟩

theorem firstSome_eq_none (rules : List (List Char → Option Trip))
    (m : List Char) (h : ∀ r ∈ rules, r m = none) :
    firstSome rules m = none := by
  induction rules with
  | nil => rfl
  | cons r rs ih =>
    simp only [firstSome]
    rw [h r (List.mem_cons_self r rs)]
    exact ih (fun r2 hr2 => h r2 (List.mem_cons_of_mem r hr2))

theorem rule_severity_mem (cfg : ClassifyCfg) :
    ∀ r ∈ classifyRules cfg, ∀ m t, r m = some t →
      t.2.1 = "INFO".data ∨ t.2.1 = "WARNING".data ∨
      t.2.1 = "SUCCESS".data ∨ t.2.1 = "CRITICAL".data := by
  intro r hr m t h
  simp only [classifyRules, List.mem_cons, List.not_mem_nil, or_false] at hr
  rcases hr with rfl | rfl | rfl | rfl | rfl | rfl | rfl | rfl | rfl | rfl |
    rfl | rfl | rfl | rfl | rfl | rfl | rfl | rfl | rfl | rfl | rfl | rfl |
    rfl | rfl | rfl | rfl | rfl | rfl | rfl | rfl | rfl | rfl | rfl | rfl |
    rfl | rfl | rfl | rfl <;>
  · simp only [ruleAutoDecay, ruleAntimesh, ruleTekTeleporter, ruleOrp,
      ruleCryopodReleased, ruleBirthHatch, ruleTamedOfficial,
      ruleClaimedOfficial, ruleStarved, ruleFroze, ruleClaimed, ruleUnclaimed,
      ruleTamed, ruleUploaded, ruleDownloaded, ruleTransferred, ruleJoinLeft,
      ruleKicked, rulePromotedDemoted, ruleTribeRenamed, ruleAddedToTribe,
      ruleLeftTribe, ruleRemovedFromTribe, rulePromotedAdmin, ruleOwnerChanged,
      ruleSetRankGroup, ruleYourStructDemolished, ruleDemolished,
      ruleEnemyDestroyed, ruleDestroyed, ruleTribememberKilledBy,
      rulePlayerKilledByPlayer, ruleDinoKilledByPlayer, ruleDinoKilledByWild,
      ruleDinoKilledEnv, ruleYourTribeKilled, ruleWasKilledBy, ruleWasKilled,
      Option.map_eq_some'] at h
    repeat' split at h
    all_goals simp_all
    all_goals (obtain ⟨st, _, rfl⟩ := h; try split) <;> simp

/-- C1: classify_message always yields a severity among INFO, WARNING,
SUCCESS and CRITICAL (it is total by construction: every rule guards
its group accesses), and a message matched by none of the rules yields
exactly (UNKNOWN, INFO, Environment). -/
theorem c1_classify_message_total (cfg : ClassifyCfg) (msg : List Char) :
    ((classifyMessage cfg msg).2.1 = "INFO".data ∨
     (classifyMessage cfg msg).2.1 = "WARNING".data ∨
     (classifyMessage cfg msg).2.1 = "SUCCESS".data ∨
     (classifyMessage cfg msg).2.1 = "CRITICAL".data) ∧
    ((∀ r ∈ classifyRules cfg, r (normSpaces msg) = none) →
      classifyMessage cfg msg =
        ("UNKNOWN".data, "INFO".data, "Environment".data)) := by
  constructor
  · unfold classifyMessage
    dsimp only
    cases h : firstSome (classifyRules cfg) (normSpaces msg) with
    | none => left; rfl
    | some t =>
      obtain ⟨r, hr, he⟩ := firstSome_eq_some _ _ _ h
      exact rule_severity_mem cfg r hr _ t he
  · intro h
    unfold classifyMessage
    dsimp only
    rw [firstSome_eq_none _ _ h]
    rfl

/-- C1 witness: no rule fires on "Hello world", and the classifier
returns the catch-all triple. -/
theorem c1_classify_message_total_witness :
    (∀ r ∈ classifyRules cfgC1, r (normSpaces "Hello world".data) = none) ∧
    classifyMessage cfgC1 "Hello world".data =
      ("UNKNOWN".data, "INFO".data, "Environment".data) :=
  ⟨by decide, (c1_classify_message_total cfgC1 "Hello world".data).2
    (by decide)⟩

theorem starvedKeys_mem (events : List HEvent) (day : Int)
    (tm victim : List Char) (hv : victim ≠ []) :
    ((events.filterMap (fun e2 =>
        (extractVictimFromStarved e2.message).bind (fun v =>
          if v = [] then none
          else some (e2.arkDay, e2.arkTime, v)))).contains
      (day, tm, victim) = true) ↔
    ∃ e2 ∈ events, extractVictimFromStarved e2.message = some victim ∧
      e2.arkDay = day ∧ e2.arkTime = tm := by
  simp only [List.contains, List.elem_iff, List.mem_filterMap,
    Option.bind_eq_some]
  constructor
  · rintro ⟨e2, he2, v, hst, hif⟩
    by_cases hveq : v = []
    · rw [if_pos hveq] at hif
      exact absurd hif (by simp)
    · rw [if_neg hveq] at hif
      obtain ⟨h1, h2, h3⟩ : e2.arkDay = day ∧ e2.arkTime = tm ∧ v = victim := by
        have := Option.some.inj hif
        exact ⟨congrArg Prod.fst this,
               congrArg (fun p => p.2.1) this,
               congrArg (fun p => p.2.2) this⟩
      exact ⟨e2, he2, h3 ▸ hst, h1, h2⟩
  · rintro ⟨e2, he2, hst, hd, ht⟩
    exact ⟨e2, he2, victim, hst, by rw [if_neg hv, hd, ht]⟩

/-- C4: the raw starved/killed pair parses to exactly the starvation
event, and in general _merge_starved_killed_pairs keeps exactly the
events not dropped by the spec's pairing rule: an unattributed
"was killed" event is dropped precisely when some event of the batch
has a "starved to death" message with the same day, time and
canonicalized creature name. -/
theorem c4_starved_killed_pairing :
    ((parseHeaderLines ["Day 10, 01:02:03: Rex starved to death!".data,
                        "Day 10, 01:02:03: Your Rex was killed!".data]).map
       (fun e => (e.arkDay, e.arkTime, e.message)) =
      [((10 : Int), "01:02:03".data, "Rex starved to death!".data)]) ∧
    (∀ events : List HEvent, mergeStarvedKilledPairs events =
      events.filter (fun e => ¬ starvedPairDropped events e)) := by
  constructor
  · decide
  · intro events
    unfold mergeStarvedKilledPairs
    split
    · rename_i h
      rw [h]
      rfl
    · apply List.filter_congr
      intro e _
      cases hk : extractVictimFromKilled e.message with
      | none => simp [starvedPairDropped, hk]
      | some v =>
        by_cases hv : v = []
        · simp [starvedPairDropped, hk, hv]
        · have hmem := starvedKeys_mem events e.arkDay e.arkTime v hv
          simp only [starvedPairDropped, hk, hv, ne_eq, not_false_eq_true,
            true_and, if_neg hv, decide_not]
          have hany : (events.any (fun e2 =>
              extractVictimFromStarved e2.message = some v &&
              e2.arkDay = e.arkDay && e2.arkTime = e.arkTime) = true) ↔
              ∃ e2 ∈ events, extractVictimFromStarved e2.message = some v ∧
                e2.arkDay = e.arkDay ∧ e2.arkTime = e.arkTime := by
            simp [List.any_eq_true, and_assoc]
          have : (events.filterMap (fun e2 =>
              (extractVictimFromStarved e2.message).bind (fun victim =>
                if victim = [] then none
                else some (e2.arkDay, e2.arkTime, victim)))).contains
              (e.arkDay, e.arkTime, v) =
              events.any (fun e2 =>
                extractVictimFromStarved e2.message = some v &&
                e2.arkDay = e.arkDay && e2.arkTime = e.arkTime) := by
            rw [Bool.eq_iff_iff]
            exact hmem.trans hany.symm
          rw [this]
          simp

theorem mem_mergeStarvedKilledPairs (events : List HEvent) (e : HEvent)
    (h : e ∈ mergeStarvedKilledPairs events) : e ∈ events := by
  unfold mergeStarvedKilledPairs at h
  split at h
  · exact h
  · exact List.mem_of_mem_filter h

theorem mergeSameTsStep_pres (P : HEvent → Prop)
    (hP : ∀ e m r, P e → P { e with message := m, rawLine := r })
    (racc : List HEvent) (e : HEvent)
    (hracc : ∀ y ∈ racc, P y) (he : P e) :
    ∀ z ∈ mergeSameTsStep racc e, P z := by
  intro z hz
  unfold mergeSameTsStep at hz
  split at hz
  · simp at hz
    exact hz ▸ he
  · rename_i prev rest
    have hprev : P prev := hracc prev (List.mem_cons_self _ _)
    have hrest : ∀ y ∈ rest, P y :=
      fun y hy => hracc y (List.mem_cons_of_mem _ hy)
    dsimp only at hz
    split at hz
    · rcases List.mem_cons.mp hz with rfl | hz2
      · exact he
      · exact hracc z hz2
    · split at hz
      · exact hracc z hz
      · split at hz
        · rcases List.mem_cons.mp hz with rfl | hz2
          · exact hP prev _ _ hprev
          · exact hrest z hz2
        · split at hz
          · rcases List.mem_cons.mp hz with rfl | hz2
            · exact hP prev _ prev.rawLine hprev
            · exact hrest z hz2
          · rcases List.mem_cons.mp hz with rfl | hz2
            · exact he
            · exact hracc z hz2

theorem mergeSameTimestampFragments_pres (P : HEvent → Prop)
    (hP : ∀ e m r, P e → P { e with message := m, rawLine := r }) :
    ∀ (events racc : List HEvent), (∀ y ∈ racc, P y) →
      (∀ x ∈ events, P x) →
      ∀ z ∈ events.foldl mergeSameTsStep racc, P z := by
  intro events
  induction events with
  | nil => intro racc hracc _ z hz; exact hracc z hz
  | cons e rest ih =>
    intro racc hracc hx z hz
    simp only [List.foldl_cons] at hz
    exact ih (mergeSameTsStep racc e)
      (mergeSameTsStep_pres P hP racc e hracc (hx e (List.mem_cons_self _ _)))
      (fun x h2 => hx x (List.mem_cons_of_mem _ h2)) z hz

theorem mem_dropFragmentSubstrings (events : List HEvent) (e : HEvent)
    (h : e ∈ dropFragmentSubstrings events) : e ∈ events := by
  induction events with
  | nil => simpa [dropFragmentSubstrings] using h
  | cons e1 rest ih =>
    cases rest with
    | nil => simpa [dropFragmentSubstrings] using h
    | cons e2 rest2 =>
      unfold dropFragmentSubstrings at h
      dsimp only at h
      split at h
      · exact List.mem_cons_of_mem _ (ih h)
      · rcases List.mem_cons.mp h with rfl | h2
        · exact List.mem_cons_self _ _
        · exact List.mem_cons_of_mem _ (ih h2)

theorem clampInt_toNat_le23 (x : Int) : (clampInt x 0 23).toNat ≤ 23 := by
  unfold clampInt
  simp only [max_def, min_def]
  split <;> split <;> omega

theorem clampInt_toNat_le59 (x : Int) : (clampInt x 0 59).toNat ≤ 59 := by
  unfold clampInt
  simp only [max_def, min_def]
  split <;> split <;> omega

theorem isSpacePy_eq_false_of_digit (c : Char) (h : isDigitPy c = true) :
    isSpacePy c = false := by
  unfold isSpacePy
  by_contra hs
  simp only [Bool.not_eq_false, Bool.or_eq_true, beq_iff_eq] at hs
  rcases hs with ((((h1 | h1) | h1) | h1) | h1) | h1 <;> subst h1 <;>
    exact absurd h (by decide)

theorem pyStrip_eq_self (s : List Char)
    (h : ∀ c ∈ s, isSpacePy c = false) : pyStrip s = s := by
  unfold pyStrip
  have h1 : s.dropWhile isSpacePy = s := by
    cases s with
    | nil => rfl
    | cons c t => simp [List.dropWhile_cons, h c (List.mem_cons_self _ _)]
  rw [h1]
  have h2 : s.reverse.dropWhile isSpacePy = s.reverse := by
    cases hr : s.reverse with
    | nil => rfl
    | cons c t =>
      have hc : c ∈ s := by
        rw [← List.mem_reverse, hr]
        exact List.mem_cons_self _ _
      simp [List.dropWhile_cons, h c hc]
  rw [h2, List.reverse_reverse]

theorem normalizeTime_form (h m : List Char) (s : Option (List Char)) :
    ∃ hh mm ss, hh ≤ 23 ∧ mm ≤ 59 ∧ ss ≤ 59 ∧
      normalizeTime h m s =
        fmt2 hh ++ ':' :: fmt2 mm ++ ':' :: fmt2 ss := by
  cases s with
  | none =>
    exact ⟨(clampInt (parseIntPy h 0) 0 23).toNat,
           (clampInt (parseIntPy m 0) 0 59).toNat, 0,
           clampInt_toNat_le23 _, clampInt_toNat_le59 _, by omega, rfl⟩
  | some sec =>
    by_cases hsec : pyStrip sec = []
    · refine ⟨(clampInt (parseIntPy h 0) 0 23).toNat,
              (clampInt (parseIntPy m 0) 0 59).toNat, 0,
              clampInt_toNat_le23 _, clampInt_toNat_le59 _, by omega, ?_⟩
      unfold normalizeTime
      dsimp only
      rw [if_pos hsec]
      rfl
    · refine ⟨(clampInt (parseIntPy h 0) 0 23).toNat,
              (clampInt (parseIntPy m 0) 0 59).toNat,
              (clampInt (parseIntPy
                (if (pyStrip sec).length ≥ 3 then
                  (pyStrip sec).drop ((pyStrip sec).length - 2)
                 else pyStrip sec) 0) 0 59).toNat,
              clampInt_toNat_le23 _, clampInt_toNat_le59 _,
              clampInt_toNat_le59 _, ?_⟩
      unfold normalizeTime
      dsimp only
      rw [if_neg hsec]

/-- C5: every event parse_header_lines produces has a positive ark day
and a clamped HH:MM:SS ark time; a matched line whose day parses to
zero or less yields no event; and a seconds token of three or more
digits is reduced to its last two before clamping. -/
theorem c5_day_and_time_invariant :
    (∀ (lines : List (List Char)) (e : HEvent), e ∈ parseHeaderLines lines →
      0 < e.arkDay ∧ ∃ hh mm ss, hh ≤ 23 ∧ mm ≤ 59 ∧ ss ≤ 59 ∧
        e.arkTime = fmt2 hh ++ ':' :: fmt2 mm ++ ':' :: fmt2 ss) ∧
    (∀ (s : List Char) (g : HeaderGroups),
      rxHeaderMatch (pyStrip s) = some g → parseIntPy g.day 0 ≤ 0 →
      parseHeaderLine s = none) ∧
    (∀ (h m s : List Char), (∀ c ∈ s, isDigitPy c = true) → 3 ≤ s.length →
      normalizeTime h m (some s) =
        normalizeTime h m (some (s.drop (s.length - 2)))) := by
  refine ⟨?_, ?_, ?_⟩
  · intro lines e he
    have key : ∀ x ∈ lines.filterMap parseHeaderLine,
        0 < x.arkDay ∧ ∃ hh mm ss, hh ≤ 23 ∧ mm ≤ 59 ∧ ss ≤ 59 ∧
          x.arkTime = fmt2 hh ++ ':' :: fmt2 mm ++ ':' :: fmt2 ss := by
      intro x hx
      obtain ⟨s, _, hs⟩ := List.mem_filterMap.mp hx
      unfold parseHeaderLine at hs
      split at hs
      · exact absurd hs (by simp)
      · rename_i g hg
        dsimp only at hs
        split at hs
        · exact absurd hs (by simp)
        · rename_i hday
          obtain rfl := Option.some.inj hs
          refine ⟨?_, normalizeTime_form g.hour g.minute g.second⟩
          show 0 < parseIntPy g.day 0
          omega
    unfold parseHeaderLines at he
    have hpres : ∀ z ∈ mergeSameTimestampFragments
        (mergeStarvedKilledPairs (lines.filterMap parseHeaderLine)),
        0 < z.arkDay ∧ ∃ hh mm ss, hh ≤ 23 ∧ mm ≤ 59 ∧ ss ≤ 59 ∧
          z.arkTime = fmt2 hh ++ ':' :: fmt2 mm ++ ':' :: fmt2 ss := by
      intro z hz
      unfold mergeSameTimestampFragments at hz
      have := mergeSameTimestampFragments_pres
        (fun x => 0 < x.arkDay ∧ ∃ hh mm ss, hh ≤ 23 ∧ mm ≤ 59 ∧ ss ≤ 59 ∧
          x.arkTime = fmt2 hh ++ ':' :: fmt2 mm ++ ':' :: fmt2 ss)
        (fun e m r hp => hp)
        (mergeStarvedKilledPairs (lines.filterMap parseHeaderLine)) []
        (by simp)
        (fun x hx => key x (mem_mergeStarvedKilledPairs _ x hx))
      exact this z (List.mem_reverse.mp hz)
    exact hpres e
      (List.mem_of_mem_filter (mem_dropFragmentSubstrings _ _ he))
  · intro s g hg hday
    unfold parseHeaderLine
    rw [hg]
    dsimp only
    rw [if_pos hday]
  · intro h m s hdig hlen
    have hns : ∀ c ∈ s, isSpacePy c = false :=
      fun c hc => isSpacePy_eq_false_of_digit c (hdig c hc)
    have hs1 : pyStrip s = s := pyStrip_eq_self s hns
    have hs2 : pyStrip (s.drop (s.length - 2)) = s.drop (s.length - 2) :=
      pyStrip_eq_self _ (fun c hc => hns c (List.mem_of_mem_drop hc))
    have hne1 : ¬ s = [] := by
      intro h0
      rw [h0] at hlen
      simp at hlen
    have hlen2 : (s.drop (s.length - 2)).length = 2 := by
      rw [List.length_drop]
      omega
    have hne2 : ¬ s.drop (s.length - 2) = [] := by
      intro h0
      rw [h0] at hlen2
      simp at hlen2
    unfold normalizeTime
    dsimp only
    rw [hs1, hs2, if_neg hne1, if_neg hne2,
      if_pos (show s.length ≥ 3 from hlen),
      if_neg (show ¬ (s.drop (s.length - 2)).length ≥ 3 by omega)]

theorem keyGt_self (a : Int × Int × ℚ) : keyGt a a = false := by
  simp [keyGt]

theorem keyGt_false_trans (a b c : Int × Int × ℚ)
    (hab : keyGt a b = false) (hcb : keyGt c b = true) :
    keyGt a c = false := by
  obtain ⟨a1, a2, a3⟩ := a
  obtain ⟨b1, b2, b3⟩ := b
  obtain ⟨c1, c2, c3⟩ := c
  simp only [keyGt, decide_eq_false_iff_not, decide_eq_true_eq] at hab hcb ⊢
  push_neg at hab
  obtain ⟨hab1, habr⟩ := hab
  rintro (h4 | ⟨ha1, hr⟩) <;>
  rcases hcb with h | ⟨hc1, h2 | ⟨hc2, h3⟩⟩
  · omega
  · omega
  · -- c1 = b1, c2 = b2, b3 < c3, c1 < a1 contradicts a1 <= b1
    omega
  · omega
  · obtain ⟨hab2, habr2⟩ := habr (by omega)
    rcases hr with h5 | ⟨ha2, _⟩ <;> omega
  · obtain ⟨hab2, habr2⟩ := habr (by omega)
    rcases hr with h5 | ⟨ha2, hq⟩
    · omega
    · have := habr2 (by omega)
      linarith

theorem attemptState_inv (st : LoopSt) (v e : List Char)
    (lines : List RLine)
    (h1 : ∀ c ∈ st.candidates, keyGt (candKey c) st.bestKey = false)
    (h2 : ∀ b, st.best = some b → ∃ c ∈ st.candidates,
      c.engine = b.engine ∧ c.variant = b.variant ∧
      candKey c = st.bestKey) :
    (∀ c ∈ (attemptState st v e lines).candidates,
      keyGt (candKey c) (attemptState st v e lines).bestKey = false) ∧
    (∀ b, (attemptState st v e lines).best = some b →
      ∃ c ∈ (attemptState st v e lines).candidates,
        c.engine = b.engine ∧ c.variant = b.variant ∧
        candKey c = (attemptState st v e lines).bestKey) := by
  unfold attemptState
  dsimp only
  split
  · rename_i hup
    constructor
    · intro c hc
      rcases List.mem_append.mp hc with hold | hnew
      · exact keyGt_false_trans _ _ _ (h1 c hold) hup
      · simp only [List.mem_singleton] at hnew
        subst hnew
        exact keyGt_self _
    · intro b hb
      obtain rfl := Option.some.inj hb
      exact ⟨_, List.mem_append.mpr (Or.inr (List.mem_singleton.mpr rfl)),
        rfl, rfl, rfl⟩
  · rename_i hup
    rw [Bool.not_eq_true] at hup
    constructor
    · intro c hc
      rcases List.mem_append.mp hc with hold | hnew
      · exact h1 c hold
      · simp only [List.mem_singleton] at hnew
        subst hnew
        exact hup
    · intro b hb
      obtain ⟨c, hc, he, hv, hk⟩ := h2 b hb
      exact ⟨c, List.mem_append.mpr (Or.inl hc), he, hv, hk⟩

theorem engineLoop_inv (oracle : Oracle) (cfg : RouterCfg) (v : List Char) :
    ∀ (es : List (List Char)) (st : LoopSt),
    (∀ c ∈ st.candidates, keyGt (candKey c) st.bestKey = false) →
    (∀ b, st.best = some b → ∃ c ∈ st.candidates,
      c.engine = b.engine ∧ c.variant = b.variant ∧
      candKey c = st.bestKey) →
    (∀ c ∈ (engineLoop oracle cfg v es st).candidates,
      keyGt (candKey c) (engineLoop oracle cfg v es st).bestKey = false) ∧
    (∀ b, (engineLoop oracle cfg v es st).best = some b →
      ∃ c ∈ (engineLoop oracle cfg v es st).candidates,
        c.engine = b.engine ∧ c.variant = b.variant ∧
        candKey c = (engineLoop oracle cfg v es st).bestKey) := by
  intro es
  induction es with
  | nil => intro st h1 h2; exact ⟨h1, h2⟩
  | cons e rest ih =>
    intro st h1 h2
    cases h : oracle v e with
    | none =>
      simp only [engineLoop, h]
      exact ih _ h1 h2
    | some lines =>
      cases lines with
      | nil =>
        simp only [engineLoop, h]
        exact ih _ h1 h2
      | cons l ls =>
        simp only [engineLoop, h]
        have hbase := attemptState_inv
          { st with attempts := st.attempts ++ [(v, e)] } v e (l :: ls) h1 h2
        split
        · exact hbase
        · exact ih _ hbase.1 hbase.2

theorem variantLoop_inv (oracle : Oracle) (cfg : RouterCfg)
    (engines : List (List Char)) :
    ∀ (vs : List (List Char)) (st : LoopSt),
    (∀ c ∈ st.candidates, keyGt (candKey c) st.bestKey = false) →
    (∀ b, st.best = some b → ∃ c ∈ st.candidates,
      c.engine = b.engine ∧ c.variant = b.variant ∧
      candKey c = st.bestKey) →
    (∀ c ∈ (variantLoop oracle cfg engines vs st).candidates,
      keyGt (candKey c) (variantLoop oracle cfg engines vs st).bestKey
        = false) ∧
    (∀ b, (variantLoop oracle cfg engines vs st).best = some b →
      ∃ c ∈ (variantLoop oracle cfg engines vs st).candidates,
        c.engine = b.engine ∧ c.variant = b.variant ∧
        candKey c = (variantLoop oracle cfg engines vs st).bestKey) := by
  intro vs
  induction vs with
  | nil => intro st h1 h2; exact ⟨h1, h2⟩
  | cons v rest ih =>
    intro st h1 h2
    have hstep := engineLoop_inv oracle cfg v engines st h1 h2
    simp only [variantLoop]
    split
    · exact hstep
    · exact ih _ hstep.1 hstep.2

theorem extractTextCore_engine_variant (oracle : Oracle) (cfg : RouterCfg)
    (b : BestSel)
    (hb : (variantLoop oracle cfg (enginesOf cfg.engineHint)
      (variantsOf cfg) initLoopSt).best = some b) :
    (extractTextCore oracle cfg).engine = b.engine ∧
    (extractTextCore oracle cfg).variant = b.variant := by
  unfold extractTextCore
  dsimp only
  rw [hb]
  exact ⟨(apply_ite OcrOut.engine _ _ _).trans (ite_self _),
         (apply_ite OcrOut.variant _ _ _).trans (ite_self _)⟩

/-- C6: every attempted candidate's score tuple is at most (in the
Python tuple order) the selected best key; some candidate realizes the
best key and names the selected engine/variant, which extract_text
reports; and on the concrete pair of candidates with header hits 2 and
1 at equal confidence, the one with 2 hits is selected. -/
theorem c6_best_is_lex_greatest (oracle : Oracle) (cfg : RouterCfg) :
    ((∀ c ∈ (variantLoop oracle cfg (enginesOf cfg.engineHint)
        (variantsOf cfg) initLoopSt).candidates,
      keyGt (candKey c) (variantLoop oracle cfg (enginesOf cfg.engineHint)
        (variantsOf cfg) initLoopSt).bestKey = false) ∧
    (∀ b, (variantLoop oracle cfg (enginesOf cfg.engineHint)
        (variantsOf cfg) initLoopSt).best = some b →
      (∃ c ∈ (variantLoop oracle cfg (enginesOf cfg.engineHint)
          (variantsOf cfg) initLoopSt).candidates,
        c.engine = b.engine ∧ c.variant = b.variant ∧
        candKey c = (variantLoop oracle cfg (enginesOf cfg.engineHint)
          (variantsOf cfg) initLoopSt).bestKey) ∧
      (extractTextCore oracle cfg).engine = b.engine ∧
      (extractTextCore oracle cfg).variant = b.variant)) ∧
    ((extractTextCore oracleC6 cfgC6).variant = "redmag_mask".data ∧
     (extractTextCore oracleC6 cfgC6).candidates.map
        (fun c => (c.variant, c.headerHits, c.meanConf)) =
      [("redmag_mask".data, 2, (1 : ℚ)/2), ("raw".data, 1, (1 : ℚ)/2)]) := by
  constructor
  · have hinv := variantLoop_inv oracle cfg (enginesOf cfg.engineHint)
      (variantsOf cfg) initLoopSt (by intro c hc; cases hc)
      (by intro b hb; cases hb)
    refine ⟨hinv.1, fun b hb => ⟨hinv.2 b hb, ?_⟩⟩
    exact extractTextCore_engine_variant oracle cfg b hb
  · constructor
    · decide
    · decide

/-- C6 witness: the invariant applied to the concrete two-candidate
oracle, whose best selection is the two-header-hit candidate. -/
theorem c6_best_is_lex_greatest_witness :
    ((variantLoop oracleC6 cfgC6 (enginesOf cfgC6.engineHint)
        (variantsOf cfgC6) initLoopSt).best.map (fun b => b.variant) =
      some "redmag_mask".data) ∧
    (extractTextCore oracleC6 cfgC6).variant = "redmag_mask".data := by
  refine ⟨by decide, ?_⟩
  have hb : (variantLoop oracleC6 cfgC6 (enginesOf cfgC6.engineHint)
      (variantsOf cfgC6) initLoopSt).best =
      some { engine := "tesseract".data, variant := "redmag_mask".data,
             conf := (1 : ℚ)/2,
             lines := [{ text := "Day 10, 01:02:03: Rex starved to death!".data,
                         conf := (1 : ℚ)/2, bbox := (0, 0, 10, 10) },
                       { text := "Day 11, 02:03:04: B landed".data,
                         conf := (1 : ℚ)/2, bbox := (0, 20, 10, 30) }] } := by
    decide
  exact (((c6_best_is_lex_greatest oracleC6 cfgC6).1.2 _ hb).2).2

theorem mergeFrom_fold_inv (bl : List RLine) (rc : Bool) (mc : ℚ)
    (seen0 : List (List Char)) :
    ∀ (lns : List RLine) (acc : List RLine × List (List Char) × Nat),
    (∃ extra, acc.1 = bl ++ extra ∧
      (∀ l ∈ extra, RE.tests rxDayHeader l.text = true ∧
        (rc = true → isCriticalText l.text = true) ∧
        fuzzyEventKey l.text ∉ seen0) ∧
      (∀ k ∈ seen0, k ∈ acc.2.1)) →
    (∃ extra, (lns.foldl
        (fun (acc : List RLine × List (List Char) × Nat) ln =>
          let c := ln.conf
          if c < mc then acc
          else
            let s := pyStrip ln.text
            if s = [] then acc
            else if ¬ RE.tests rxDayHeader s then acc
            else if rc ∧ ¬ isCriticalText s then acc
            else if acc.2.1.contains (fuzzyEventKey s) then acc
            else (acc.1 ++ [{ text := s, conf := c, bbox := ln.bbox }],
                  fuzzyEventKey s :: acc.2.1, acc.2.2 + 1)) acc).1 =
        bl ++ extra ∧
      (∀ l ∈ extra, RE.tests rxDayHeader l.text = true ∧
        (rc = true → isCriticalText l.text = true) ∧
        fuzzyEventKey l.text ∉ seen0) ∧
      (∀ k ∈ seen0, k ∈ (lns.foldl
        (fun (acc : List RLine × List (List Char) × Nat) ln =>
          let c := ln.conf
          if c < mc then acc
          else
            let s := pyStrip ln.text
            if s = [] then acc
            else if ¬ RE.tests rxDayHeader s then acc
            else if rc ∧ ¬ isCriticalText s then acc
            else if acc.2.1.contains (fuzzyEventKey s) then acc
            else (acc.1 ++ [{ text := s, conf := c, bbox := ln.bbox }],
                  fuzzyEventKey s :: acc.2.1, acc.2.2 + 1)) acc).2.1)) := by
  intro lns
  induction lns with
  | nil =>
    intro acc h
    obtain ⟨extra, h1, h2, h3⟩ := h
    exact ⟨extra, h1, h2, h3⟩
  | cons ln rest ih =>
    intro acc h
    obtain ⟨extra, h1, h2, h3⟩ := h
    simp only [List.foldl_cons]
    apply ih
    dsimp only
    split
    · exact ⟨extra, h1, h2, h3⟩
    · split
      · exact ⟨extra, h1, h2, h3⟩
      · split
        · exact ⟨extra, h1, h2, h3⟩
        · split
          · exact ⟨extra, h1, h2, h3⟩
          · split
            · exact ⟨extra, h1, h2, h3⟩
            · rename_i hconf hblank hhdr hcrit hseen
              refine ⟨extra ++ [⟨pyStrip ln.text, ln.conf, ln.bbox⟩],
                ?_, ?_, ?_⟩
              · rw [h1, List.append_assoc]
              · intro l hl
                rcases List.mem_append.mp hl with hold | hnew
                · exact h2 l hold
                · simp only [List.mem_singleton] at hnew
                  subst hnew
                  refine ⟨by simpa using hhdr, ?_, ?_⟩
                  · intro hrc
                    by_contra hc
                    exact hcrit ⟨hrc, by simpa using hc⟩
                  · intro hk
                    have : (acc.2.1.contains
                        (fuzzyEventKey (pyStrip ln.text))) = true := by
                      rw [List.contains_eq_any_beq]
                      rw [List.any_eq_true]
                      exact ⟨_, h3 _ hk, by simp⟩
                    exact hseen this
              · intro k hk
                exact List.mem_cons_of_mem _ (h3 k hk)

theorem mergeFrom_extras (oracle : Oracle) (bv be : List Char)
    (bl : List RLine) (names : List (List Char)) (vname : List Char)
    (rc : Bool) (mc : ℚ) :
    ∃ extra, (mergeFrom oracle bv be bl names vname rc mc).1 = bl ++ extra ∧
      ∀ l ∈ extra, RE.tests rxDayHeader l.text = true ∧
        (rc = true → isCriticalText l.text = true) ∧
        fuzzyEventKey l.text ∉ bl.filterMap (fun d =>
          if d.text ≠ [] then some (fuzzyEventKey d.text) else none) := by
  unfold mergeFrom
  split
  · exact ⟨[], by simp, by simp⟩
  · split
    · exact ⟨[], by simp, by simp⟩
    · cases h : oracle vname be with
      | none =>
        simp only [h]
        exact ⟨[], by simp, by simp⟩
      | some lines =>
        cases lines with
        | nil =>
          simp only [h]
          exact ⟨[], by simp, by simp⟩
        | cons l ls =>
          simp only [h]
          have := mergeFrom_fold_inv bl rc mc
            (bl.filterMap (fun d =>
              if d.text ≠ [] then some (fuzzyEventKey d.text) else none))
            (l :: ls)
            (bl, bl.filterMap (fun d =>
              if d.text ≠ [] then some (fuzzyEventKey d.text) else none), 0)
            ⟨[], by simp, by simp, by simp⟩
          obtain ⟨extra, h1, h2, _⟩ := this
          exact ⟨extra, h1, h2⟩

/-- C7 (code bug): every line the color-isolation merge pass appends
matches the tolerant Day-header pattern, respects the critical-keyword
requirement when it is set, and carries a fuzzy event key absent from
the already-selected lines.  But the source passes
require_critical=False for the rb_minus_g pass (router.py line 453)
against its own comment "merge only critical lines to avoid adding
noise" (line 451): concretely, a non-critical membership line seen only
by rb_minus_g is appended. -/
theorem c7_merge_pass_filters (oracle : Oracle) (bv be : List Char)
    (bl : List RLine) (names : List (List Char)) (vname : List Char)
    (rc : Bool) (mc : ℚ) :
    (∃ extra, (mergeFrom oracle bv be bl names vname rc mc).1 =
        bl ++ extra ∧
      ∀ l ∈ extra, RE.tests rxDayHeader l.text = true ∧
        (rc = true → isCriticalText l.text = true) ∧
        fuzzyEventKey l.text ∉ bl.filterMap (fun d =>
          if d.text ≠ [] then some (fuzzyEventKey d.text) else none)) ∧
    (isCriticalText lineC7.text = false ∧
     (extractTextCore oracleC7 cfgC7).mergedVariants =
        ["rb_minus_g".data] ∧
     (extractTextCore oracleC7 cfgC7).lines.map (fun l => l.text) =
        ["Day 10, 01:02:03: Rex starved to death!".data, lineC7.text]) := by
  refine ⟨mergeFrom_extras oracle bv be bl names vname rc mc, ?_, ?_, ?_⟩
  · decide
  · decide
  · decide

theorem consumeN_zero (st : MSt) : RE.consumeN st 0 = st := by
  simp [RE.consumeN]

set_option maxHeartbeats 1000000 in
theorem rxDayHeader_single_digit (dc : Char)
    (hdc : isDigitPy dc = true) (hsp : isSpacePy dc = false)
    (hpn : oneOf ",/:-" dc = false) (rest : List Char) :
    RE.tests rxDayHeader ('D' :: 'a' :: 'y' :: ' ' :: dc :: ',' :: rest) = false := by
  have e1 : isSpacePy 'D' = false := by decide
  have e2 : isSpacePy ' ' = true := by decide
  have e3 : isDigitPy ' ' = false := by decide
  have e4 : isDigitPy ',' = false := by decide
  have e5 : oneOf ",/:-" ' ' = false := by decide
  have e6 : (lowerPy 'D' == lowerPy 'D') = true := by decide
  have e7 : (lowerPy 'a' == lowerPy 'a') = true := by decide
  have e8 : (lowerPy 'y' == lowerPy 'y') = true := by decide
  have e9 : (lowerPy 'v' == lowerPy 'y') = false := by decide
  have e10 : (lowerPy 'o' == lowerPy 'a') = false := by decide
  have s1 : "Day".data = ['D', 'a', 'y'] := rfl
  have s2 : "Dav".data = ['D', 'a', 'v'] := rfl
  have s3 : "Doy".data = ['D', 'o', 'y'] := rfl
  have r1 : RE.descRange 0 0 = [0] := rfl
  have r2 : RE.descRange 0 1 = [1, 0] := rfl
  have m1 : (min 1 6 : Nat) = 1 := rfl
  have m0 : (min 0 6 : Nat) = 0 := rfl
  have m01 : (min 0 1 : Nat) = 0 := rfl
  have n1 : ¬ ((2 : Nat) ≤ 1) := by decide
  have n0 : ¬ ((2 : Nat) ≤ 0) := by decide
  have n2 : ¬ ((1 : Nat) ≤ 0) := by decide
  simp only [RE.tests, RE.reMatch, RE.stInit, rxDayHeader, reCat, List.foldr,
    reDayWord, reDaySep, spS, reOne, litCI, s1, s2, s3]
  simp [RE.allM, RE.litMatches, RE.consumeN, runLen, hdc, hsp, hpn,
    e1, e2, e3, e4, e5, e6, e7, e8, e9, e10, r1, r2, m1, m0, m01,
    n1, n0, n2, consumeN_zero]

theorem rxDayHeader_digitChar (d : Nat) (hd : d < 10) (rest : List Char) :
    RE.tests rxDayHeader
      ('D' :: 'a' :: 'y' :: ' ' :: digitChar d :: ',' :: rest) = false := by
  interval_cases d <;>
    exact rxDayHeader_single_digit _ (by decide) (by decide) (by decide) rest

/-- C10: _RX_DAY_HEADER rejects every line of the shape
"Day <single digit>,<anything>", so the concrete single-digit-day line
scores zero header hits and the merge pass never appends any line of
that shape; yet the stitcher keeps that same line and the header parser
parses it into an event with ark_day 5. -/
theorem c10_single_digit_day_invisible_to_router :
    (∀ d : Nat, d < 10 → ∀ rest : List Char,
        RE.tests rxDayHeader
          ('D' :: 'a' :: 'y' :: ' ' :: digitChar d :: ',' :: rest) = false) ∧
    headerHits [⟨lineC10, 9 / 10, (0, 0, 0, 0)⟩] = 0 ∧
    stitchWrappedLines [lineC10] = [lineC10] ∧
    parseHeaderLines [lineC10] =
      [⟨5, "10:00:00".data, "Your Rex was killed!".data, lineC10⟩] ∧
    ∀ (oracle : Oracle) (bv be : List Char) (bl : List RLine)
      (names : List (List Char)) (vname : List Char) (rc : Bool) (mc : ℚ)
      (l : RLine), l ∈ (mergeFrom oracle bv be bl names vname rc mc).1 →
      l ∉ bl → ∀ d : Nat, d < 10 → ∀ rest : List Char,
        l.text ≠ 'D' :: 'a' :: 'y' :: ' ' :: digitChar d :: ',' :: rest := by
  refine ⟨rxDayHeader_digitChar, by decide, by decide, by decide, ?_⟩
  intro oracle bv be bl names vname rc mc l hmem hnot d hd rest heq
  obtain ⟨extra, happ, hprop⟩ :=
    mergeFrom_extras oracle bv be bl names vname rc mc
  rw [happ] at hmem
  rcases List.mem_append.1 hmem with h | h
  · exact hnot h
  · have ht := (hprop l h).1
    rw [heq, rxDayHeader_digitChar d hd rest] at ht
    exact Bool.false_ne_true ht

/-- C10 witness: the rejection lemma applied at the concrete digit 5 and
the concrete remainder of the example line. -/
theorem c10_single_digit_day_invisible_to_router_witness :
    RE.tests rxDayHeader
      ('D' :: 'a' :: 'y' :: ' ' :: digitChar 5 :: ',' ::
        " 10:00:00: Your Rex was killed!".data) = false :=
  c10_single_digit_day_invisible_to_router.1 5 (by decide)
    " 10:00:00: Your Rex was killed!".data

theorem firstIs_eps (st : MSt) : FirstIs RE.eps st st := ⟨[], rfl⟩

theorem firstIs_seq {a b : RE} {st st1 st2 : MSt}
    (h1 : FirstIs a st st1) (h2 : FirstIs b st1 st2) :
    FirstIs (RE.seq a b) st st2 := by
  obtain ⟨t1, e1⟩ := h1
  obtain ⟨t2, e2⟩ := h2
  exact ⟨t2 ++ t1.flatMap (RE.allM b), by simp [RE.allM, e1, e2]⟩

theorem firstIs_alt_left {a b : RE} {st st1 : MSt} (h : FirstIs a st st1) :
    FirstIs (RE.alt a b) st st1 := by
  obtain ⟨t, e⟩ := h
  exact ⟨t ++ RE.allM b st, by simp [RE.allM, e]⟩

theorem firstIs_opt {a : RE} {st st1 : MSt} (h : FirstIs a st st1) :
    FirstIs (RE.opt a) st st1 := by
  obtain ⟨t, e⟩ := h
  exact ⟨t ++ [st], by simp [RE.allM, e]⟩

theorem firstIs_opt_skip {a : RE} {st : MSt} (h : RE.allM a st = []) :
    FirstIs (RE.opt a) st st := ⟨[], by simp [RE.allM, h]⟩

theorem firstIs_grp {n : Nat} {a : RE} {st st1 : MSt} (h : FirstIs a st st1) :
    FirstIs (RE.grp n a) st
      ⟨st1.prev, st1.rem,
        (n, st.rem.take (st.rem.length - st1.rem.length)) :: st1.caps⟩ := by
  obtain ⟨t, e⟩ := h
  refine ⟨t.map (fun st2 =>
    { st2 with caps :=
        (n, st.rem.take (st.rem.length - st2.rem.length)) :: st2.caps }), ?_⟩
  simp [RE.allM, e]

theorem firstIs_lit (l : List Char) (cf : Bool) (st : MSt)
    (h : RE.litMatches l cf st.rem = true) :
    FirstIs (RE.lit l cf) st (RE.consumeN st l.length) :=
  ⟨[], by simp [RE.allM, h]⟩

theorem descRange_cons (lo r : Nat) (h : lo ≤ r) :
    ∃ t, RE.descRange lo r = r :: t := by
  unfold RE.descRange
  have : r + 1 - lo = (r - lo) + 1 := by omega
  rw [this, List.range_succ_eq_map]
  exact ⟨((List.range (r - lo)).map Nat.succ).map (fun i => r - i), by simp⟩

theorem firstIs_cls (p : Char → Bool) (lo hi : Nat) (st : MSt)
    (h : lo ≤ min (runLen p st.rem) hi) :
    FirstIs (RE.cls p lo hi) st
      (RE.consumeN st (min (runLen p st.rem) hi)) := by
  obtain ⟨t, e⟩ := descRange_cons lo (min (runLen p st.rem) hi) h
  refine ⟨t.map (RE.consumeN st), ?_⟩
  simp only [RE.allM]
  rw [if_pos h, e]
  simp

theorem firstIs_star (p : Char → Bool) (st : MSt) :
    FirstIs (RE.star p) st (RE.consumeN st (runLen p st.rem)) := by
  obtain ⟨t, e⟩ := descRange_cons 0 (runLen p st.rem) (Nat.zero_le _)
  refine ⟨t.map (RE.consumeN st), ?_⟩
  simp only [RE.allM]
  rw [e]
  simp

theorem firstIs_eol_nil {st : MSt} (h : st.rem = []) : FirstIs RE.eol st st :=
  ⟨[], by simp [RE.allM, h]⟩

theorem reMatch_of_firstIs {re : RE} {s : List Char} {st' : MSt}
    (h : FirstIs re (RE.stInit s) st') : RE.reMatch re s = some st' := by
  obtain ⟨t, e⟩ := h
  simp [RE.reMatch, e]

theorem runLen_append_of_all {p : Char → Bool} (A B : List Char)
    (h : ∀ c ∈ A, p c = true) :
    runLen p (A ++ B) = A.length + runLen p B := by
  induction A with
  | nil => simp
  | cons a t ih =>
    rw [List.cons_append]
    show (if p a then runLen p (t ++ B) + 1 else 0) = _
    rw [if_pos (h a (List.mem_cons_self _ _)),
        ih (fun c hc => h c (List.mem_cons_of_mem _ hc))]
    simp only [List.length_cons]
    omega

theorem runLen_le_length {p : Char → Bool} (l : List Char) :
    runLen p l ≤ l.length := by
  induction l with
  | nil => simp [runLen]
  | cons c t ih =>
    simp only [runLen]
    split <;> simp <;> omega

theorem all_of_runLen_eq_length {p : Char → Bool} (l : List Char)
    (h : runLen p l = l.length) : ∀ c ∈ l, p c = true := by
  induction l with
  | nil => simp
  | cons c t ih =>
    simp only [runLen] at h
    by_cases hc : p c = true
    · rw [if_pos hc] at h
      intro x hx
      rcases List.mem_cons.1 hx with rfl | hx
      · exact hc
      · exact ih (by simpa using h) x hx
    · rw [if_neg hc] at h
      simp at h

theorem consumeN_append (pv : Option Char) (cp : List (Nat × List Char))
    (A B : List Char) :
    RE.consumeN ⟨pv, A ++ B, cp⟩ A.length = ⟨A.getLast? <|> pv, B, cp⟩ := by
  unfold RE.consumeN
  cases A with
  | nil => simp
  | cons a t =>
    have hne : (a :: t : List Char).length ≠ 0 := by simp
    rw [if_neg hne, List.take_left, List.drop_left]

theorem firstIs_lit_self (l : List Char) (cf : Bool) (pv : Option Char)
    (cp : List (Nat × List Char)) (B : List Char) :
    FirstIs (RE.lit l cf) ⟨pv, l ++ B, cp⟩ ⟨l.getLast? <|> pv, B, cp⟩ := by
  have hm : RE.litMatches l cf (l ++ B) = true := by
    induction l with
    | nil => rfl
    | cons a t ih =>
      rw [List.cons_append]
      show ((if cf then lowerPy a == lowerPy a else a == a) &&
        RE.litMatches t cf (t ++ B)) = true
      rw [ih]
      cases cf <;> simp
  have := firstIs_lit l cf ⟨pv, l ++ B, cp⟩ hm
  rwa [consumeN_append] at this

theorem firstIs_cls_exact {p : Char → Bool} {lo hi : Nat}
    (pv : Option Char) (cp : List (Nat × List Char)) (A B : List Char)
    (hA : ∀ c ∈ A, p c = true) (hB : runLen p B = 0)
    (hlo : lo ≤ A.length) (hhi : A.length ≤ hi) :
    FirstIs (RE.cls p lo hi) ⟨pv, A ++ B, cp⟩ ⟨A.getLast? <|> pv, B, cp⟩ := by
  have hr : runLen p (A ++ B) = A.length := by
    rw [runLen_append_of_all A B hA, hB]
    omega
  have hmin : min (runLen p ((⟨pv, A ++ B, cp⟩ : MSt).rem)) hi = A.length := by
    show min (runLen p (A ++ B)) hi = A.length
    rw [hr]
    omega
  have := firstIs_cls p lo hi ⟨pv, A ++ B, cp⟩ (by rw [hmin]; exact hlo)
  rwa [hmin, consumeN_append] at this

theorem firstIs_star_exact {p : Char → Bool}
    (pv : Option Char) (cp : List (Nat × List Char)) (A B : List Char)
    (hA : ∀ c ∈ A, p c = true) (hB : runLen p B = 0) :
    FirstIs (RE.star p) ⟨pv, A ++ B, cp⟩ ⟨A.getLast? <|> pv, B, cp⟩ := by
  have hr : runLen p ((⟨pv, A ++ B, cp⟩ : MSt).rem) = A.length := by
    show runLen p (A ++ B) = A.length
    rw [runLen_append_of_all A B hA, hB]
    omega
  have := firstIs_star p ⟨pv, A ++ B, cp⟩
  rwa [hr, consumeN_append] at this

theorem firstIs_star_skip {p : Char → Bool} {st : MSt}
    (h : runLen p st.rem = 0) : FirstIs (RE.star p) st st := by
  have := firstIs_star p st
  rwa [h, consumeN_zero] at this

theorem allM_cls_nil {p : Char → Bool} {lo hi : Nat} {st : MSt}
    (h : min (runLen p st.rem) hi < lo) :
    RE.allM (RE.cls p lo hi) st = [] := by
  simp only [RE.allM]
  rw [if_neg (by omega)]

theorem runLen_eq_length_of_all {p : Char → Bool} (l : List Char)
    (h : ∀ c ∈ l, p c = true) : runLen p l = l.length := by
  induction l with
  | nil => rfl
  | cons c t ih =>
    show (if p c then runLen p t + 1 else 0) = t.length + 1
    rw [if_pos (h c (List.mem_cons_self _ _)),
        ih (fun x hx => h x (List.mem_cons_of_mem _ hx))]

theorem getLast?_drop_eq (l : List Char) (n : Nat) :
    (l.drop n).getLast? = if n < l.length then l.getLast? else none := by
  induction l generalizing n with
  | nil => simp
  | cons a t ih =>
    cases n with
    | zero => simp
    | succ m =>
      rw [List.drop_succ_cons, ih]
      by_cases h : m < t.length
      · rw [if_pos h, if_pos (by simp; omega)]
        cases t with
        | nil => simp at h
        | cons b t2 => simp [List.getLast?_cons_cons]
      · rw [if_neg h, if_neg (by simp; omega)]

theorem runLen_lt_length_of_last {p : Char → Bool} (l : List Char)
    (hne : l ≠ []) (h : ∀ c, l.getLast? = some c → p c = false) :
    runLen p l < l.length := by
  rcases Nat.lt_or_ge (runLen p l) l.length with hlt | hge
  · exact hlt
  · exfalso
    have heq : runLen p l = l.length :=
      Nat.le_antisymm (runLen_le_length l) hge
    have hall := all_of_runLen_eq_length l heq
    have hp := hall _ (List.getLast_mem hne)
    rw [h _ (List.getLast?_eq_getLast l hne)] at hp
    exact Bool.false_ne_true hp

theorem mem_descRange {lo hi i : Nat} (h : i ∈ RE.descRange lo hi) :
    lo ≤ i ∧ i ≤ hi := by
  unfold RE.descRange at h
  obtain ⟨j, hj, rfl⟩ := List.mem_map.1 h
  rw [List.mem_range] at hj
  omega

theorem ascRange_zero (r : Nat) : RE.ascRange 0 r = List.range (r + 1) := by
  unfold RE.ascRange
  simp

theorem flatMap_range_last (f : Nat → List MSt) (r : Nat) (x : List MSt)
    (h : ∀ i < r, f i = []) (hr : f r = x) :
    (List.range (r + 1)).flatMap f = x := by
  rw [List.range_succ, List.flatMap_append,
      show (List.range r).flatMap f = [] from
        List.bind_eq_nil.mpr (fun i hi => h i (List.mem_range.1 hi))]
  simp [hr]

theorem allM_spEolNil (pv : Option Char) (cp : List (Nat × List Char))
    (R : List Char) (hne : R ≠ []) (hnl : ¬ ('\n' ∈ R))
    (hlast : ∀ c, R.getLast? = some c → isSpacePy c = false) :
    RE.allM (RE.seq (RE.star isSpacePy) (RE.seq RE.eol RE.eps))
      ⟨pv, R, cp⟩ = [] := by
  have hk : runLen isSpacePy R < R.length :=
    runLen_lt_length_of_last R hne hlast
  show ((RE.allM (RE.star isSpacePy) ⟨pv, R, cp⟩).flatMap
      (RE.allM (RE.seq RE.eol RE.eps))) = []
  refine List.bind_eq_nil.mpr ?_
  intro st2 hst2
  simp only [RE.allM] at hst2
  obtain ⟨j, hj, rfl⟩ := List.mem_map.1 hst2
  have hjk := (mem_descRange hj).2
  have hrem : (RE.consumeN ⟨pv, R, cp⟩ j).rem = R.drop j := rfl
  show ((RE.allM RE.eol (RE.consumeN ⟨pv, R, cp⟩ j)).flatMap
      (RE.allM RE.eps)) = []
  have h1 : ¬ (R.drop j = []) := by
    rw [List.drop_eq_nil_iff]
    omega
  have h2 : ¬ (R.drop j = ['\n']) := by
    intro hx
    exact hnl (List.mem_of_mem_drop (hx ▸ List.mem_cons_self '\n' []))
  simp only [RE.allM, hrem]
  rw [if_neg (by tauto)]
  rfl

theorem allM_msgTail (pv : Option Char) (cp : List (Nat × List Char))
    (M : List Char) (hnl : ¬ ('\n' ∈ M))
    (hlast : ∀ c, M.getLast? = some c → isSpacePy c = false) :
    RE.allM (RE.seq (RE.grp 5 (RE.starL isDotPy))
        (RE.seq (RE.star isSpacePy) (RE.seq RE.eol RE.eps))) ⟨pv, M, cp⟩
      = [⟨M.getLast? <|> pv, [], (5, M) :: cp⟩] := by
  have hall : ∀ c ∈ M, isDotPy c = true := by
    intro c hc
    have : c ≠ '\n' := fun hx => hnl (hx ▸ hc)
    simp [isDotPy, this]
  have hrun : runLen isDotPy M = M.length := runLen_eq_length_of_all M hall
  show ((RE.allM (RE.grp 5 (RE.starL isDotPy)) ⟨pv, M, cp⟩).flatMap
      (RE.allM (RE.seq (RE.star isSpacePy) (RE.seq RE.eol RE.eps)))) = _
  have hgrp : RE.allM (RE.grp 5 (RE.starL isDotPy)) ⟨pv, M, cp⟩
      = (List.range (M.length + 1)).map (fun i =>
          ⟨(RE.consumeN ⟨pv, M, cp⟩ i).prev, M.drop i, (5, M.take i) :: cp⟩) := by
    show ((RE.allM (RE.starL isDotPy) ⟨pv, M, cp⟩).map _) = _
    have hstarL : RE.allM (RE.starL isDotPy) ⟨pv, M, cp⟩
        = (List.range (M.length + 1)).map (RE.consumeN ⟨pv, M, cp⟩) := by
      show ((RE.ascRange 0 (runLen isDotPy M)).map (RE.consumeN ⟨pv, M, cp⟩)) = _
      rw [hrun, ascRange_zero]
    rw [hstarL, List.map_map]
    refine List.map_congr_left ?_
    intro i hi
    rw [List.mem_range] at hi
    have h1 : (RE.consumeN ⟨pv, M, cp⟩ i).rem = M.drop i := rfl
    have h2 : M.length - (M.drop i).length = i := by
      rw [List.length_drop]
      omega
    simp only [Function.comp_apply, h1, h2]
    rfl
  rw [hgrp, List.flatMap_map]
  refine flatMap_range_last _ _ _ ?_ ?_
  · intro i hi
    have hne : ¬ (M.drop i = []) := by
      rw [List.drop_eq_nil_iff]
      omega
    refine allM_spEolNil _ _ _ hne ?_ ?_
    · intro hx
      exact hnl (List.mem_of_mem_drop hx)
    · intro c hc
      rw [getLast?_drop_eq, if_pos hi] at hc
      exact hlast c hc
  · have hrem0 : M.drop M.length = [] := List.drop_length M
    have htake : M.take M.length = M := List.take_length M
    rw [hrem0, htake]
    have hprev : (RE.consumeN ⟨pv, M, cp⟩ M.length).prev
        = (M.getLast? <|> pv) := by
      unfold RE.consumeN
      cases M with
      | nil => simp
      | cons a t =>
        have hne : (a :: t : List Char).length ≠ 0 := by simp
        rw [if_neg hne]
        simp [List.take_length]
    rw [hprev]
    rfl

theorem oneOf_daySep_eq_false_of_digit (c : Char) (h : isDigitPy c = true) :
    oneOf ",/:-" c = false := by
  by_contra hs
  simp only [oneOf, Bool.not_eq_false] at hs
  have hm : c ∈ (",/:-".data) := List.elem_iff.mp hs
  have he : (",/:-".data) = [',', '/', ':', '-'] := rfl
  rw [he] at hm
  simp only [List.mem_cons, List.not_mem_nil, or_false] at hm
  rcases hm with rfl | rfl | rfl | rfl <;> exact absurd h (by decide)

theorem oneOf_timeSep_eq_false_of_digit (c : Char) (h : isDigitPy c = true) :
    oneOf ":." c = false := by
  by_contra hs
  simp only [oneOf, Bool.not_eq_false] at hs
  have hm : c ∈ (":.".data) := List.elem_iff.mp hs
  have he : (":.".data) = [':', '.'] := rfl
  rw [he] at hm
  simp only [List.mem_cons, List.not_mem_nil, or_false] at hm
  rcases hm with rfl | rfl <;> exact absurd h (by decide)

theorem runLen_zero_of_digit_head {p : Char → Bool} (c : Char) (t : List Char)
    (h : p c = false) : runLen p (c :: t) = 0 := by
  simp [runLen, h]

theorem runLen_zero_of_pyStrip_self (M : List Char) (h : pyStrip M = M) :
    runLen isSpacePy M = 0 := by
  cases hM : M with
  | nil => rfl
  | cons c t =>
    by_cases hc : isSpacePy c = true
    · exfalso
      have hlen : (pyStrip (c :: t)).length < (c :: t).length := by
        unfold pyStrip
        have h1 : (c :: t).dropWhile isSpacePy = t.dropWhile isSpacePy := by
          simp [List.dropWhile_cons, hc]
        rw [h1]
        have h2 : (t.dropWhile isSpacePy).length ≤ t.length :=
          (List.dropWhile_sublist _).length_le
        have h3 : (((t.dropWhile isSpacePy).reverse.dropWhile
            isSpacePy)).length ≤ (t.dropWhile isSpacePy).reverse.length :=
          (List.dropWhile_sublist _).length_le
        simp only [List.length_reverse, List.length_cons] at *
        omega
      rw [← hM, h] at hlen
      omega
    · simp only [Bool.not_eq_true] at hc
      exact runLen_zero_of_digit_head c t hc

theorem getLast_not_space_of_pyStrip_self (M : List Char)
    (h : pyStrip M = M) :
    ∀ c, M.getLast? = some c → isSpacePy c = false := by
  intro c hc
  by_contra hs
  simp only [Bool.not_eq_false] at hs
  have hrun : runLen isSpacePy M = 0 := runLen_zero_of_pyStrip_self M h
  have hA : M.dropWhile isSpacePy = M := by
    cases hM : M with
    | nil => rfl
    | cons d t =>
      have hd : isSpacePy d = false := by
        have := hrun
        rw [hM] at this
        by_contra hdd
        simp only [Bool.not_eq_false] at hdd
        simp [runLen, hdd] at this
      simp [List.dropWhile_cons, hd]
  unfold pyStrip at h
  rw [hA] at h
  cases hMR : M.reverse with
  | nil =>
    have : M = [] := by simpa using congrArg List.reverse hMR
    rw [this] at hc
    simp at hc
  | cons d t' =>
    have hd : d = c := by
      have h1 : M.reverse.head? = M.getLast? := List.head?_reverse M
      rw [hMR, hc] at h1
      simpa using h1
    subst hd
    rw [hMR] at h
    have h2 : (d :: t').dropWhile isSpacePy = t'.dropWhile isSpacePy := by
      simp [List.dropWhile_cons, hs]
    rw [h2] at h
    have h3 : (t'.dropWhile isSpacePy).length ≤ t'.length :=
      (List.dropWhile_sublist _).length_le
    have h4 : M.length = t'.length + 1 := by
      have := congrArg List.length hMR
      simp only [List.length_reverse, List.length_cons] at this
      omega
    have h5 := congrArg List.length h
    simp only [List.length_reverse] at h5
    omega

theorem firstIs_grp_exact {n : Nat} {a : RE} {pv pv2 : Option Char}
    {cp : List (Nat × List Char)} (A B : List Char)
    (h : FirstIs a ⟨pv, A ++ B, cp⟩ ⟨pv2, B, cp⟩) :
    FirstIs (RE.grp n a) ⟨pv, A ++ B, cp⟩ ⟨pv2, B, (n, A) :: cp⟩ := by
  have h2 := firstIs_grp (n := n) h
  have e1 : ((A ++ B : List Char)).length - B.length = A.length := by
    rw [List.length_append]
    omega
  simpa only [e1, List.take_left] using h2

theorem rxHeader_match_gen (D H Mn Sec M : List Char)
    (hD : D ≠ []) (hDd : ∀ c ∈ D, isDigitPy c = true) (hD6 : D.length ≤ 6)
    (hHne : H ≠ []) (hHd : ∀ c ∈ H, isDigitPy c = true) (hH2 : H.length ≤ 2)
    (hMnne : Mn ≠ []) (hMnd : ∀ c ∈ Mn, isDigitPy c = true)
    (hMn2 : Mn.length ≤ 2)
    (hSne : Sec ≠ []) (hSd : ∀ c ∈ Sec, isDigitPy c = true)
    (hS2 : Sec.length = 2)
    (hne : M ≠ []) (hstr : pyStrip M = M) (hnl : ¬ ('\n' ∈ M)) :
    RE.reMatch rxHeader
        ('D' :: 'a' :: 'y' :: ' ' :: (D ++ (',' :: ' ' :: (H ++ (':' ::
          (Mn ++ (':' :: (Sec ++ (':' :: ' ' :: M)))))))))
      = some ⟨M.getLast? <|> some ' ', [],
          [(5, M), (4, Sec), (3, Mn), (2, H), (1, D)]⟩ := by
  obtain ⟨c0, D0, rfl⟩ := List.exists_cons_of_ne_nil hD
  obtain ⟨h0, H0, rfl⟩ := List.exists_cons_of_ne_nil hHne
  obtain ⟨n0, N0, rfl⟩ := List.exists_cons_of_ne_nil hMnne
  obtain ⟨s0, S0, rfl⟩ := List.exists_cons_of_ne_nil hSne
  have hc0 : isDigitPy c0 = true := hDd c0 (List.mem_cons_self _ _)
  have hh0 : isDigitPy h0 = true := hHd h0 (List.mem_cons_self _ _)
  have hn0 : isDigitPy n0 = true := hMnd n0 (List.mem_cons_self _ _)
  have hs0 : isDigitPy s0 = true := hSd s0 (List.mem_cons_self _ _)
  let r4 : List Char := ':' :: ' ' :: M
  let r3 : List Char := ':' :: ((s0 :: S0) ++ r4)
  let r2 : List Char := ':' :: ((n0 :: N0) ++ r3)
  let r1 : List Char := ',' :: ' ' :: ((h0 :: H0) ++ r2)
  let s : List Char := 'D' :: 'a' :: 'y' :: ' ' :: ((c0 :: D0) ++ r1)
  let cp1 : List (Nat × List Char) := [(1, c0 :: D0)]
  let cp2 : List (Nat × List Char) := (2, h0 :: H0) :: cp1
  let cp3 : List (Nat × List Char) := (3, n0 :: N0) :: cp2
  let cp4 : List (Nat × List Char) := (4, s0 :: S0) :: cp3
  have hA : FirstIs (RE.star isSpacePy) ⟨none, s, []⟩ ⟨none, s, []⟩ :=
    firstIs_star_skip (runLen_zero_of_digit_head 'D' _ (by decide))
  have hB : FirstIs reDayWord ⟨none, s, []⟩
      ⟨some 'y', ' ' :: ((c0 :: D0) ++ r1), []⟩ :=
    firstIs_alt_left
      (firstIs_lit_self "Day".data true none [] (' ' :: ((c0 :: D0) ++ r1)))
  have hC1 : FirstIs (RE.star isSpacePy)
      ⟨some 'y', ' ' :: ((c0 :: D0) ++ r1), []⟩
      ⟨some ' ', (c0 :: D0) ++ r1, []⟩ :=
    firstIs_star_exact (some 'y') [] [' '] ((c0 :: D0) ++ r1) (by decide)
      (runLen_zero_of_digit_head c0 (D0 ++ r1)
        (isSpacePy_eq_false_of_digit c0 hc0))
  have hC2 : FirstIs (RE.opt (reOne (oneOf ",/:-")))
      ⟨some ' ', (c0 :: D0) ++ r1, []⟩
      ⟨some ' ', (c0 :: D0) ++ r1, []⟩ :=
    firstIs_opt_skip (allM_cls_nil (by
      have hz : runLen (oneOf ",/:-") ((c0 :: D0) ++ r1) = 0 :=
        runLen_zero_of_digit_head c0 (D0 ++ r1)
          (oneOf_daySep_eq_false_of_digit c0 hc0)
      show min (runLen (oneOf ",/:-") ((c0 :: D0) ++ r1)) 1 < 1
      rw [hz]
      omega))
  have hC3 : FirstIs (RE.star isSpacePy)
      ⟨some ' ', (c0 :: D0) ++ r1, []⟩
      ⟨some ' ', (c0 :: D0) ++ r1, []⟩ :=
    firstIs_star_skip (runLen_zero_of_digit_head c0 (D0 ++ r1)
      (isSpacePy_eq_false_of_digit c0 hc0))
  have hC : FirstIs reDaySep
      ⟨some 'y', ' ' :: ((c0 :: D0) ++ r1), []⟩
      ⟨some ' ', (c0 :: D0) ++ r1, []⟩ :=
    firstIs_seq hC1 (firstIs_seq hC2 (firstIs_seq hC3 (firstIs_eps _)))
  have hD4 : FirstIs (RE.grp 1 (RE.cls isDigitPy 1 6))
      ⟨some ' ', (c0 :: D0) ++ r1, []⟩
      ⟨(c0 :: D0).getLast? <|> some ' ', r1, cp1⟩ :=
    firstIs_grp_exact (c0 :: D0) r1
      (firstIs_cls_exact (some ' ') [] (c0 :: D0) r1 hDd
        (runLen_zero_of_digit_head ',' _ (by decide)) (by simp) hD6)
  have hE1 : FirstIs (RE.star isSpacePy)
      ⟨(c0 :: D0).getLast? <|> some ' ', r1, cp1⟩
      ⟨(c0 :: D0).getLast? <|> some ' ', r1, cp1⟩ :=
    firstIs_star_skip (runLen_zero_of_digit_head ',' _ (by decide))
  have hE2 : FirstIs (litCS ",")
      ⟨(c0 :: D0).getLast? <|> some ' ', r1, cp1⟩
      ⟨some ',', ' ' :: ((h0 :: H0) ++ r2), cp1⟩ :=
    firstIs_lit_self ",".data false ((c0 :: D0).getLast? <|> some ' ') cp1
      (' ' :: ((h0 :: H0) ++ r2))
  have hE3 : FirstIs (RE.star isSpacePy)
      ⟨some ',', ' ' :: ((h0 :: H0) ++ r2), cp1⟩
      ⟨some ' ', (h0 :: H0) ++ r2, cp1⟩ :=
    firstIs_star_exact (some ',') cp1 [' '] ((h0 :: H0) ++ r2) (by decide)
      (runLen_zero_of_digit_head h0 (H0 ++ r2)
        (isSpacePy_eq_false_of_digit h0 hh0))
  have hE : FirstIs reDayHourSep
      ⟨(c0 :: D0).getLast? <|> some ' ', r1, cp1⟩
      ⟨some ' ', (h0 :: H0) ++ r2, cp1⟩ :=
    firstIs_opt (firstIs_alt_left
      (firstIs_seq hE1 (firstIs_seq hE2 (firstIs_seq hE3 (firstIs_eps _)))))
  have hF : FirstIs (RE.grp 2 (RE.cls isDigitPy 1 2))
      ⟨some ' ', (h0 :: H0) ++ r2, cp1⟩
      ⟨(h0 :: H0).getLast? <|> some ' ', r2, cp2⟩ :=
    firstIs_grp_exact (h0 :: H0) r2
      (firstIs_cls_exact (some ' ') cp1 (h0 :: H0) r2 hHd
        (runLen_zero_of_digit_head ':' _ (by decide)) (by simp) hH2)
  have hG1 : FirstIs (RE.star isSpacePy)
      ⟨(h0 :: H0).getLast? <|> some ' ', r2, cp2⟩
      ⟨(h0 :: H0).getLast? <|> some ' ', r2, cp2⟩ :=
    firstIs_star_skip (runLen_zero_of_digit_head ':' _ (by decide))
  have hG2 : FirstIs (reOne (oneOf ":."))
      ⟨(h0 :: H0).getLast? <|> some ' ', r2, cp2⟩
      ⟨some ':', (n0 :: N0) ++ r3, cp2⟩ :=
    firstIs_cls_exact ((h0 :: H0).getLast? <|> some ' ') cp2 [':']
      ((n0 :: N0) ++ r3) (by decide)
      (runLen_zero_of_digit_head n0 (N0 ++ r3)
        (oneOf_timeSep_eq_false_of_digit n0 hn0)) (by simp) (by simp)
  have hG3 : FirstIs (RE.star isSpacePy)
      ⟨some ':', (n0 :: N0) ++ r3, cp2⟩
      ⟨some ':', (n0 :: N0) ++ r3, cp2⟩ :=
    firstIs_star_skip (runLen_zero_of_digit_head n0 (N0 ++ r3)
      (isSpacePy_eq_false_of_digit n0 hn0))
  have hG : FirstIs reTimeSep
      ⟨(h0 :: H0).getLast? <|> some ' ', r2, cp2⟩
      ⟨some ':', (n0 :: N0) ++ r3, cp2⟩ :=
    firstIs_seq hG1 (firstIs_seq hG2 (firstIs_seq hG3 (firstIs_eps _)))
  have hH4 : FirstIs (RE.grp 3 (RE.cls isDigitPy 1 2))
      ⟨some ':', (n0 :: N0) ++ r3, cp2⟩
      ⟨(n0 :: N0).getLast? <|> some ':', r3, cp3⟩ :=
    firstIs_grp_exact (n0 :: N0) r3
      (firstIs_cls_exact (some ':') cp2 (n0 :: N0) r3 hMnd
        (runLen_zero_of_digit_head ':' _ (by decide)) (by simp) hMn2)
  have hI1 : FirstIs (RE.star isSpacePy)
      ⟨(n0 :: N0).getLast? <|> some ':', r3, cp3⟩
      ⟨(n0 :: N0).getLast? <|> some ':', r3, cp3⟩ :=
    firstIs_star_skip (runLen_zero_of_digit_head ':' _ (by decide))
  have hI2 : FirstIs (reOne (oneOf ":."))
      ⟨(n0 :: N0).getLast? <|> some ':', r3, cp3⟩
      ⟨some ':', (s0 :: S0) ++ r4, cp3⟩ :=
    firstIs_cls_exact ((n0 :: N0).getLast? <|> some ':') cp3 [':']
      ((s0 :: S0) ++ r4) (by decide)
      (runLen_zero_of_digit_head s0 (S0 ++ r4)
        (oneOf_timeSep_eq_false_of_digit s0 hs0)) (by simp) (by simp)
  have hI3 : FirstIs (RE.star isSpacePy)
      ⟨some ':', (s0 :: S0) ++ r4, cp3⟩
      ⟨some ':', (s0 :: S0) ++ r4, cp3⟩ :=
    firstIs_star_skip (runLen_zero_of_digit_head s0 (S0 ++ r4)
      (isSpacePy_eq_false_of_digit s0 hs0))
  have hI4 : FirstIs (RE.grp 4 (RE.cls isDigitPy 2 3))
      ⟨some ':', (s0 :: S0) ++ r4, cp3⟩
      ⟨(s0 :: S0).getLast? <|> some ':', r4, cp4⟩ :=
    firstIs_grp_exact (s0 :: S0) r4
      (firstIs_cls_exact (some ':') cp3 (s0 :: S0) r4 hSd
        (runLen_zero_of_digit_head ':' _ (by decide)) (by omega) (by omega))
  have hI : FirstIs (RE.opt (reCat [RE.star isSpacePy, reOne (oneOf ":."),
      RE.star isSpacePy, RE.grp 4 (RE.cls isDigitPy 2 3)]))
      ⟨(n0 :: N0).getLast? <|> some ':', r3, cp3⟩
      ⟨(s0 :: S0).getLast? <|> some ':', r4, cp4⟩ :=
    firstIs_opt (firstIs_seq hI1 (firstIs_seq hI2
      (firstIs_seq hI3 (firstIs_seq hI4 (firstIs_eps _)))))
  have hJ : FirstIs (RE.star isSpacePy)
      ⟨(s0 :: S0).getLast? <|> some ':', r4, cp4⟩
      ⟨(s0 :: S0).getLast? <|> some ':', r4, cp4⟩ :=
    firstIs_star_skip (runLen_zero_of_digit_head ':' _ (by decide))
  have hK1 : FirstIs (RE.star isSpacePy)
      ⟨(s0 :: S0).getLast? <|> some ':', r4, cp4⟩
      ⟨(s0 :: S0).getLast? <|> some ':', r4, cp4⟩ :=
    firstIs_star_skip (runLen_zero_of_digit_head ':' _ (by decide))
  have hK2 : FirstIs (reOne (oneOf ":-"))
      ⟨(s0 :: S0).getLast? <|> some ':', r4, cp4⟩
      ⟨some ':', ' ' :: M, cp4⟩ :=
    firstIs_cls_exact ((s0 :: S0).getLast? <|> some ':') cp4 [':']
      (' ' :: M) (by decide)
      (runLen_zero_of_digit_head ' ' M (by decide)) (by simp) (by simp)
  have hK3 : FirstIs (RE.star isSpacePy)
      ⟨some ':', ' ' :: M, cp4⟩ ⟨some ' ', M, cp4⟩ :=
    firstIs_star_exact (some ':') cp4 [' '] M (by decide)
      (runLen_zero_of_pyStrip_self M hstr)
  have hK : FirstIs (RE.opt (RE.alt (reCat [RE.star isSpacePy,
      reOne (oneOf ":-"), RE.star isSpacePy]) (rePlus isSpacePy)))
      ⟨(s0 :: S0).getLast? <|> some ':', r4, cp4⟩
      ⟨some ' ', M, cp4⟩ :=
    firstIs_opt (firstIs_alt_left
      (firstIs_seq hK1 (firstIs_seq hK2 (firstIs_seq hK3 (firstIs_eps _)))))
  have hTail : FirstIs (RE.seq (RE.grp 5 (RE.starL isDotPy))
      (RE.seq (RE.star isSpacePy) (RE.seq RE.eol RE.eps)))
      ⟨some ' ', M, cp4⟩
      ⟨M.getLast? <|> some ' ', [], (5, M) :: cp4⟩ :=
    ⟨[], allM_msgTail (some ' ') cp4 M hnl
      (getLast_not_space_of_pyStrip_self M hstr)⟩
  exact reMatch_of_firstIs (firstIs_seq hA (firstIs_seq hB (firstIs_seq hC
    (firstIs_seq hD4 (firstIs_seq hE (firstIs_seq hF (firstIs_seq hG
      (firstIs_seq hH4 (firstIs_seq hI (firstIs_seq hJ
        (firstIs_seq hK hTail)))))))))))

theorem rxHeaderMatch_gen (D H Mn Sec M : List Char)
    (hD : D ≠ []) (hDd : ∀ c ∈ D, isDigitPy c = true) (hD6 : D.length ≤ 6)
    (hHne : H ≠ []) (hHd : ∀ c ∈ H, isDigitPy c = true) (hH2 : H.length ≤ 2)
    (hMnne : Mn ≠ []) (hMnd : ∀ c ∈ Mn, isDigitPy c = true)
    (hMn2 : Mn.length ≤ 2)
    (hSne : Sec ≠ []) (hSd : ∀ c ∈ Sec, isDigitPy c = true)
    (hS2 : Sec.length = 2)
    (hne : M ≠ []) (hstr : pyStrip M = M) (hnl : ¬ ('\n' ∈ M)) :
    rxHeaderMatch
        ('D' :: 'a' :: 'y' :: ' ' :: (D ++ (',' :: ' ' :: (H ++ (':' ::
          (Mn ++ (':' :: (Sec ++ (':' :: ' ' :: M)))))))))
      = some ⟨D, H, Mn, some Sec, M⟩ := by
  have hm := rxHeader_match_gen D H Mn Sec M hD hDd hD6 hHne hHd hH2
    hMnne hMnd hMn2 hSne hSd hS2 hne hstr hnl
  unfold rxHeaderMatch
  rw [hm]
  simp [RE.capOf, List.find?]

theorem parseIntPy_digits (D : List Char) (hne : D ≠ [])
    (hd : ∀ c ∈ D, isDigitPy c = true) :
    parseIntPy D 0 = (digitsVal D : Int) := by
  have hstrip : pyStrip D = D :=
    pyStrip_eq_self D (fun c hc => isSpacePy_eq_false_of_digit c (hd c hc))
  unfold parseIntPy
  rw [hstrip]
  dsimp only
  have hall : D.all isDigitPy = true := List.all_eq_true.mpr hd
  split
  · exact absurd (hd '+' (List.mem_cons_self _ _)) (by decide)
  · exact absurd (hd '-' (List.mem_cons_self _ _)) (by decide)
  · rw [if_pos ⟨hne, hall⟩]

theorem digitChar_isDigit (k : Nat) (h : k < 10) :
    isDigitPy (digitChar k) = true := by
  interval_cases k <;> decide

theorem digitChar_toNat (k : Nat) (h : k < 10) :
    (digitChar k).toNat = 48 + k := by
  interval_cases k <;> decide

theorem fmt2_digits (n : Nat) (h : n < 100) :
    ∀ c ∈ fmt2 n, isDigitPy c = true := by
  intro c hc
  rcases List.mem_cons.1 hc with rfl | hc2
  · exact digitChar_isDigit _ (by omega)
  · rcases List.mem_cons.1 hc2 with rfl | hc3
    · exact digitChar_isDigit _ (by omega)
    · simp at hc3

theorem digitsVal_fmt2 (n : Nat) (h : n < 100) : digitsVal (fmt2 n) = n := by
  show (0 * 10 + ((digitChar (n / 10)).toNat - 48)) * 10 +
    ((digitChar (n % 10)).toNat - 48) = n
  rw [digitChar_toNat _ (by omega), digitChar_toNat _ (by omega)]
  omega

theorem clampInt_id (x lo hi : Int) (h1 : lo ≤ x) (h2 : x ≤ hi) :
    clampInt x lo hi = x := by
  unfold clampInt
  omega

theorem normalizeTime_fmt2 (hh mm ss : Nat) (h1 : hh < 24) (h2 : mm < 60)
    (h3 : ss < 60) :
    normalizeTime (fmt2 hh) (fmt2 mm) (some (fmt2 ss))
      = fmt2 hh ++ ':' :: fmt2 mm ++ ':' :: fmt2 ss := by
  have e1 : parseIntPy (fmt2 hh) 0 = (hh : Int) := by
    rw [parseIntPy_digits _ (by simp [fmt2]) (fmt2_digits hh (by omega)),
        digitsVal_fmt2 hh (by omega)]
  have e2 : parseIntPy (fmt2 mm) 0 = (mm : Int) := by
    rw [parseIntPy_digits _ (by simp [fmt2]) (fmt2_digits mm (by omega)),
        digitsVal_fmt2 mm (by omega)]
  have e3 : parseIntPy (fmt2 ss) 0 = (ss : Int) := by
    rw [parseIntPy_digits _ (by simp [fmt2]) (fmt2_digits ss (by omega)),
        digitsVal_fmt2 ss (by omega)]
  have hstrips : pyStrip (fmt2 ss) = fmt2 ss :=
    pyStrip_eq_self _ (fun c hc =>
      isSpacePy_eq_false_of_digit c (fmt2_digits ss (by omega) c hc))
  unfold normalizeTime
  dsimp only
  rw [if_neg (by rw [hstrips]; simp [fmt2])]
  rw [hstrips]
  rw [if_neg (by simp [fmt2])]
  rw [e1, e2, e3]
  rw [clampInt_id _ _ _ (by omega) (by omega),
      clampInt_id _ _ _ (by omega) (by omega),
      clampInt_id _ _ _ (by omega) (by omega)]
  rw [Int.toNat_ofNat, Int.toNat_ofNat, Int.toNat_ofNat]

theorem getLast?_cons_ne (c : Char) (l : List Char) (h : l ≠ []) :
    (c :: l).getLast? = l.getLast? := by
  show (([c] : List Char) ++ l).getLast? = l.getLast?
  exact List.getLast?_append_of_ne_nil [c] h

theorem getLast?_line (D H Mn Sec M : List Char) (hM : M ≠ []) :
    ('D' :: 'a' :: 'y' :: ' ' :: (D ++ (',' :: ' ' :: (H ++ (':' ::
      (Mn ++ (':' :: (Sec ++ (':' :: ' ' :: M))))))))).getLast?
    = M.getLast? := by
  rw [getLast?_cons_ne 'D' _ (by simp), getLast?_cons_ne 'a' _ (by simp),
      getLast?_cons_ne 'y' _ (by simp), getLast?_cons_ne ' ' _ (by simp),
      List.getLast?_append_of_ne_nil D (by simp),
      getLast?_cons_ne ',' _ (by simp), getLast?_cons_ne ' ' _ (by simp),
      List.getLast?_append_of_ne_nil H (by simp),
      getLast?_cons_ne ':' _ (by simp),
      List.getLast?_append_of_ne_nil Mn (by simp),
      getLast?_cons_ne ':' _ (by simp),
      List.getLast?_append_of_ne_nil Sec (by simp),
      getLast?_cons_ne ':' _ (by simpa using hM),
      getLast?_cons_ne ' ' _ hM]

theorem pyStrip_eq_self_ends (s : List Char) (h1 : runLen isSpacePy s = 0)
    (h2 : ∀ c, s.getLast? = some c → isSpacePy c = false) :
    pyStrip s = s := by
  unfold pyStrip
  have hd : s.dropWhile isSpacePy = s := by
    cases s with
    | nil => rfl
    | cons c t =>
      have hc : isSpacePy c = false := by
        by_contra hcc
        simp only [Bool.not_eq_false] at hcc
        simp [runLen, hcc] at h1
      simp [List.dropWhile_cons, hc]
  rw [hd]
  have hrev : s.reverse.dropWhile isSpacePy = s.reverse := by
    cases hr : s.reverse with
    | nil => rfl
    | cons c t =>
      have hgl : s.getLast? = some c := by
        rw [← List.head?_reverse, hr]
        rfl
      simp [List.dropWhile_cons, h2 c hgl]
  rw [hrev, List.reverse_reverse]

theorem parseHeaderLine_canonical (D : List Char) (hh mm ss : Nat)
    (M : List Char)
    (hD : D ≠ []) (hDd : ∀ c ∈ D, isDigitPy c = true) (hD6 : D.length ≤ 6)
    (hDpos : 0 < digitsVal D)
    (hh24 : hh < 24) (hm60 : mm < 60) (hs60 : ss < 60)
    (hne : M ≠ []) (hstr : pyStrip M = M) (hnl : ¬ ('\n' ∈ M)) :
    parseHeaderLine
      ('D' :: 'a' :: 'y' :: ' ' :: (D ++ (',' :: ' ' :: (fmt2 hh ++ (':' ::
        (fmt2 mm ++ (':' :: (fmt2 ss ++ (':' :: ' ' :: M)))))))))
    = some ⟨(digitsVal D : Int),
        fmt2 hh ++ ':' :: fmt2 mm ++ ':' :: fmt2 ss, M,
        pyStrip (collapseWS ('D' :: 'a' :: 'y' :: ' ' :: (D ++ (',' :: ' ' ::
          (fmt2 hh ++ (':' :: (fmt2 mm ++ (':' :: (fmt2 ss ++
            (':' :: ' ' :: M))))))))))⟩ := by
  have hLstrip : pyStrip ('D' :: 'a' :: 'y' :: ' ' :: (D ++ (',' :: ' ' ::
      (fmt2 hh ++ (':' :: (fmt2 mm ++ (':' :: (fmt2 ss ++
        (':' :: ' ' :: M)))))))))
      = 'D' :: 'a' :: 'y' :: ' ' :: (D ++ (',' :: ' ' ::
      (fmt2 hh ++ (':' :: (fmt2 mm ++ (':' :: (fmt2 ss ++
        (':' :: ' ' :: M)))))))) :=
    pyStrip_eq_self_ends _ (runLen_zero_of_digit_head 'D' _ (by decide))
      (fun c hc => by
        rw [getLast?_line D (fmt2 hh) (fmt2 mm) (fmt2 ss) M hne] at hc
        exact getLast_not_space_of_pyStrip_self M hstr c hc)
  unfold parseHeaderLine
  rw [hLstrip]
  rw [rxHeaderMatch_gen D (fmt2 hh) (fmt2 mm) (fmt2 ss) M hD hDd hD6
    (by simp [fmt2]) (fmt2_digits hh (by omega)) (by simp [fmt2])
    (by simp [fmt2]) (fmt2_digits mm (by omega)) (by simp [fmt2])
    (by simp [fmt2]) (fmt2_digits ss (by omega)) (by simp [fmt2])
    hne hstr hnl]
  dsimp only
  rw [parseIntPy_digits D hD hDd]
  rw [if_neg (by omega : ¬ ((digitsVal D : Nat) : Int) ≤ 0)]
  rw [normalizeTime_fmt2 hh mm ss hh24 hm60 hs60, hstr]

theorem digitsVal_append_digit (A : List Char) (c : Char) :
    digitsVal (A ++ [c]) = 10 * digitsVal A + (c.toNat - 48) := by
  show (A ++ [c]).foldl (fun a c => a * 10 + (c.toNat - 48)) 0 = _
  rw [List.foldl_append]
  show digitsVal A * 10 + (c.toNat - 48) = _
  omega

theorem natDigitsAux_digits (fuel : Nat) :
    ∀ n, ∀ c ∈ natDigitsAux fuel n, isDigitPy c = true := by
  induction fuel with
  | zero => simp [natDigitsAux]
  | succ f ih =>
    intro n c hc
    unfold natDigitsAux at hc
    split at hc
    · simp at hc
    · rcases List.mem_append.1 hc with h | h
      · exact ih _ c h
      · have : c = digitChar (n % 10) := by simpa using h
        rw [this]
        exact digitChar_isDigit _ (by omega)

theorem natDigitsAux_val (fuel : Nat) :
    ∀ n, n ≤ fuel → digitsVal (natDigitsAux fuel n) = n := by
  induction fuel with
  | zero =>
    intro n h
    have : n = 0 := by omega
    simp [natDigitsAux, digitsVal, this]
  | succ f ih =>
    intro n h
    unfold natDigitsAux
    split
    · rename_i h0
      simp [digitsVal, h0]
    · rename_i h0
      rw [digitsVal_append_digit, ih (n / 10) (by omega),
          digitChar_toNat (n % 10) (by omega)]
      omega

theorem natDigits_ne_nil (n : Nat) : natDigits n ≠ [] := by
  unfold natDigits
  split
  · simp
  · rename_i h0
    cases n with
    | zero => exact absurd rfl h0
    | succ m =>
      show natDigitsAux (m + 1) (m + 1) ≠ []
      unfold natDigitsAux
      rw [if_neg (by omega)]
      simp

theorem digitsVal_natDigits (n : Nat) : digitsVal (natDigits n) = n := by
  unfold natDigits
  split
  · rename_i h0
    rw [h0]
    rfl
  · exact natDigitsAux_val n n le_rfl

theorem natDigits_digits (n : Nat) :
    ∀ c ∈ natDigits n, isDigitPy c = true := by
  unfold natDigits
  split
  · intro c hc
    have : c = '0' := by simpa using hc
    rw [this]
    decide
  · exact natDigitsAux_digits n n

theorem natDigitsAux_length (fuel : Nat) :
    ∀ n k, n ≤ fuel → n < 10 ^ k → (natDigitsAux fuel n).length ≤ k := by
  induction fuel with
  | zero => simp [natDigitsAux]
  | succ f ih =>
    intro n k hf hk
    unfold natDigitsAux
    split
    · simp
    · rename_i h0
      rw [List.length_append]
      cases k with
      | zero =>
        exfalso
        simp at hk
        omega
      | succ k2 =>
        have h1 : n / 10 < 10 ^ k2 := by
          refine Nat.div_lt_of_lt_mul ?_
          rw [pow_succ] at hk
          omega
        have h2 := ih (n / 10) k2 (by omega) h1
        simp only [List.length_cons, List.length_nil]
        omega

theorem natDigits_length_le_6 (n : Nat) (h : n < 1000000) :
    (natDigits n).length ≤ 6 := by
  unfold natDigits
  split
  · simp
  · refine natDigitsAux_length n n 6 le_rfl ?_
    norm_num
    omega

theorem reconstructLine_cons (d : Nat) (hh mm ss : Nat) (msg : List Char) :
    reconstructLine (d : Int)
        (fmt2 hh ++ ':' :: fmt2 mm ++ ':' :: fmt2 ss) msg
      = 'D' :: 'a' :: 'y' :: ' ' :: (natDigits d ++ (',' :: ' ' ::
          (fmt2 hh ++ (':' :: (fmt2 mm ++ (':' :: (fmt2 ss ++
            (':' :: ' ' :: msg)))))))) := by
  unfold reconstructLine
  rw [show ((d : Int)).toNat = d from rfl,
      show "Day ".data = ['D', 'a', 'y', ' '] from rfl,
      show ", ".data = [',', ' '] from rfl,
      show ": ".data = [':', ' '] from rfl]
  simp [List.append_assoc]

theorem c9_idempotence_core (d hh mm ss : Nat) (msg : List Char)
    (hd : 0 < d) (hd6 : d < 1000000) (hh24 : hh < 24) (hm60 : mm < 60)
    (hs60 : ss < 60) (hne : msg ≠ []) (hstr : pyStrip msg = msg)
    (hnl : ¬ ('\n' ∈ msg)) :
    parseHeaderLine (reconstructLine (d : Int)
        (fmt2 hh ++ ':' :: fmt2 mm ++ ':' :: fmt2 ss) msg)
      = some ⟨(d : Int), fmt2 hh ++ ':' :: fmt2 mm ++ ':' :: fmt2 ss, msg,
          pyStrip (collapseWS (reconstructLine (d : Int)
            (fmt2 hh ++ ':' :: fmt2 mm ++ ':' :: fmt2 ss) msg))⟩ := by
  have key := parseHeaderLine_canonical (natDigits d) hh mm ss msg
    (natDigits_ne_nil d) (natDigits_digits d) (natDigits_length_le_6 d hd6)
    (by rw [digitsVal_natDigits]; exact hd)
    hh24 hm60 hs60 hne hstr hnl
  rw [digitsVal_natDigits] at key
  rw [reconstructLine_cons]
  exact key

/-- C9: parsing an already-normalized "Day N, HH:MM:SS: message" line
(day between 1 and 999999, in-range two-digit time components, stripped
newline-free message), rebuilding the line from the parsed triple with
the canonical format and parsing the rebuilt line yields the identical
(day, time, message) triple; the parsed triple is exactly the one the
line was built from. -/
theorem c9_parse_reconstruct_idempotent (d hh mm ss : Nat) (msg : List Char)
    (hd : 0 < d) (hd6 : d < 1000000) (hh24 : hh < 24) (hm60 : mm < 60)
    (hs60 : ss < 60) (hne : msg ≠ []) (hstr : pyStrip msg = msg)
    (hnl : ¬ ('\n' ∈ msg)) :
    ∃ ev ev2 : HEvent,
      parseHeaderLine (reconstructLine (d : Int)
          (fmt2 hh ++ ':' :: fmt2 mm ++ ':' :: fmt2 ss) msg) = some ev ∧
      parseHeaderLine (reconstructLine ev.arkDay ev.arkTime ev.message)
        = some ev2 ∧
      ev2.arkDay = ev.arkDay ∧ ev2.arkTime = ev.arkTime ∧
      ev2.message = ev.message ∧
      ev.arkDay = (d : Int) ∧
      ev.arkTime = fmt2 hh ++ ':' :: fmt2 mm ++ ':' :: fmt2 ss ∧
      ev.message = msg := by
  have key := c9_idempotence_core d hh mm ss msg hd hd6 hh24 hm60 hs60
    hne hstr hnl
  exact ⟨_, _, key, key, rfl, rfl, rfl, rfl, rfl, rfl⟩

/-- C9 witness: the idempotence theorem applied to the concrete line
"Day 3, 01:02:03: Rex starved to death!". -/
theorem c9_parse_reconstruct_idempotent_witness :
    ∃ ev ev2 : HEvent,
      parseHeaderLine (reconstructLine ((3 : Nat) : Int)
          (fmt2 1 ++ ':' :: fmt2 2 ++ ':' :: fmt2 3)
          "Rex starved to death!".data) = some ev ∧
      parseHeaderLine (reconstructLine ev.arkDay ev.arkTime ev.message)
        = some ev2 ∧
      ev2.arkDay = ev.arkDay ∧ ev2.arkTime = ev.arkTime ∧
      ev2.message = ev.message ∧
      ev.arkDay = ((3 : Nat) : Int) ∧
      ev.arkTime = fmt2 1 ++ ':' :: fmt2 2 ++ ':' :: fmt2 3 ∧
      ev.message = "Rex starved to death!".data :=
  c9_parse_reconstruct_idempotent 3 1 2 3 "Rex starved to death!".data
    (by decide) (by decide) (by decide) (by decide) (by decide)
    (by decide) (by decide) (by decide)

/-- C5 witness: a line with out-of-range time components parses to an
event with positive day and clamped time (hour 99 to 23, minute 99 to
59, seconds 123 reduced to 23). -/
theorem c5_day_and_time_invariant_witness :
    (({ arkDay := 3, arkTime := "23:59:23".data,
        message := "hello there friend!".data,
        rawLine := "Day 3, 99:99:123: hello there friend!".data } : HEvent) ∈
      parseHeaderLines ["Day 3, 99:99:123: hello there friend!".data]) ∧
    (0 < ({ arkDay := 3, arkTime := "23:59:23".data,
            message := "hello there friend!".data,
            rawLine := "Day 3, 99:99:123: hello there friend!".data } :
          HEvent).arkDay ∧
      ∃ hh mm ss, hh ≤ 23 ∧ mm ≤ 59 ∧ ss ≤ 59 ∧
        ({ arkDay := 3, arkTime := "23:59:23".data,
           message := "hello there friend!".data,
           rawLine := "Day 3, 99:99:123: hello there friend!".data } :
          HEvent).arkTime =
          fmt2 hh ++ ':' :: fmt2 mm ++ ':' :: fmt2 ss) :=
  ⟨by decide,
   c5_day_and_time_invariant.1
     ["Day 3, 99:99:123: hello there friend!".data] _ (by decide)⟩

end GravityCapture
